import Mathlib

/-!
# Mock ESX command runner (`vmdkops/mock_vmdkcmd.go`)

A shallow embedding of the loopback-backed volume lifecycle implemented in
`mock_vmdkcmd.go`, together with the properties of its minor-number selection,
its `create` / `list` / `remove` operations and their failure behaviour.

Conventions of the embedding.

* Go's `int` is taken at its linux/amd64 width of 64 bits: values are `Int`,
  and the one addition the source performs is wrapped explicitly.
* A Go `(value, error)` pair is an `Except`; a Go function that mutates the
  machine returns its result paired with the machine state it leaves behind,
  so that the state after a *failed* call is visible too.
* The operating system and the external tools (`blkid`, `losetup`, `mknod`,
  `mkfs.ext4`) are not part of the source file; they are modelled explicitly in
  the section "Machine model" and every call to them is recorded in a log.
-/

namespace Vmdkops

/-! ## Go library functions used by the source -/

/-- Largest value of Go's 64-bit `int`. -/
def maxInt : Int := 2 ^ 63 - 1

/-- Smallest value of Go's 64-bit `int`. -/
def minInt : Int := -(2 ^ 63)

/-- Two's-complement wrap of a mathematical integer into Go's 64-bit `int`. -/
def wrapInt (x : Int) : Int := (x + 2 ^ 63) % 2 ^ 64 - 2 ^ 63

/-- Go `strings.TrimPrefix`: `s` without the leading `pre` when `s` starts with
`pre`, and `s` itself otherwise. -/
def TrimPrefix (s pre : String) : String :=
  if pre.data <+: s.data then ⟨s.data.drop pre.data.length⟩ else s

/-- Go `strings.TrimRight` with the cutset `" \n"` used by `remove`. -/
def TrimRight (s : String) : String :=
  ⟨(s.data.reverse.dropWhile (fun c => c = ' ' || c = '\n')).reverse⟩

/-- Value of one decimal digit character. -/
def digitVal (c : Char) : Nat := c.toNat - 48

/-- Value of a run of decimal digit characters, most significant first. -/
def digitsVal (ds : List Char) : Nat := ds.foldl (fun n c => n * 10 + digitVal c) 0

/-- Go `strconv.Atoi`: an optional sign followed by one or more decimal digits.
`none` stands for a non-nil error, either a syntax error or a value outside
the range of `int`. -/
def Atoi (s : String) : Option Int :=
  match s.data with
  | [] => none
  | c :: r =>
    let ds := if c = '-' ∨ c = '+' then r else c :: r
    if ds ≠ [] ∧ ds.all Char.isDigit = true then
      let v : Int := if c = '-' then -(digitsVal ds : Int) else (digitsVal ds : Int)
      if minInt ≤ v ∧ v ≤ maxInt then some v else none
    else none

/-- Go `%d` formatting of an `int`. -/
def fmtInt (n : Int) : String :=
  if n < 0 then ⟨'-' :: Nat.toDigits 10 n.natAbs⟩ else ⟨Nat.toDigits 10 n.natAbs⟩

/-! ## Errors -/

/-- Error numbers reported by the operating system and the external tools. -/
inductive Errno where
  /-- the path already names something -/
  | EEXIST
  /-- the path names nothing, or a directory on the way is missing -/
  | ENOENT
  /-- the directory has entries -/
  | ENOTEMPTY
  /-- the device or directory is in use -/
  | EBUSY
  /-- the device is not bound -/
  | ENODEV
  /-- the last component of the path is `.` -/
  | EINVAL
  /-- stands for every failure whose cause is outside the model (see `Faults`) -/
  | fault
  deriving DecidableEq, Repr

/-- The errors the functions of `mock_vmdkcmd.go` return, one constructor per
`fmt.Errorf` format (or propagated library error) of the source, plus the
panic of `getMaxLoopbackCount`. -/
inductive Err where
  /-- "Failed to read %s" -/
  | readRoot (root : String)
  /-- "Failed to find device for backing file %s via blkid" -/
  | findDevice (backing : String)
  /-- "Failed to detach loopback device node %s with error: %s. Output = %s" -/
  | detach (device : String) (cause : Errno)
  /-- "Failed to remove backing file %s: %s" -/
  | removeBacking (backing : String) (cause : Errno)
  /-- the error of `os.Remove(device)`, returned as it is -/
  | osRemove (path : String) (cause : Errno)
  /-- "Failed to create backing file %s: %s." -/
  | createBacking (backing : String) (cause : Errno)
  /-- "Failed to allocate %s with error: %s." -/
  | allocate (backing : String) (cause : Errno)
  /-- "Failed to make device node %s with error: %s. Output = %s" -/
  | makeNode (device : String) (cause : Errno)
  /-- "Failed to setup loopback device node %s for backing file %s ..." -/
  | setupLoopback (device backing : String) (cause : Errno)
  /-- "Failed to create filesystem on %s with error: %s. Output = %s" -/
  | makeFs (device : String) (cause : Errno)
  /-- the error of `fs.Mkdir(backingRoot)`, returned as it is -/
  | mkdirRoot (cause : Errno)
  /-- `panic(msg)`: the process aborts -/
  | panic (msg : String)
  deriving DecidableEq, Repr

deriving instance DecidableEq for Except

/-! ## Minor-number selection -/

/-- One iteration of the loop of `getMaxLoopbackCount` (source lines 113-120). -/
def loopbackStep (count : Int) (file : String) : Int :=
  match Atoi (TrimPrefix file "loop") with
  | some s => if s > count then s else count
  | none => count

/-- `getMaxLoopbackCount`, as a function of what `ioutil.ReadDir("/dev")`
returned: the names of the directory entries, or an error. -/
def getMaxLoopbackCount (readDev : Except Errno (List String)) : Except Err Int :=
  match readDev with
  | .error _ => .error (.panic "Failed to read /dev")
  | .ok files => .ok (files.foldl loopbackStep 1000)

/-- Lines 90-91 of `createBlockDevice`: the minor number `loopbackCount` and the
device path derived from it. -/
def newLoopback (readDev : Except Errno (List String)) : Except Err (Int × String) :=
  match getMaxLoopbackCount readDev with
  | .error e => .error e
  | .ok count =>
    let loopbackCount := wrapInt (count + 1)
    .ok (loopbackCount, "/dev/loop" ++ fmtInt loopbackCount)

/-- Reading of the claims' "name of the form loop<decimal digits>": the numeric
suffix of such a name, `none` for every other name. -/
def loopSuffix (name : String) : Option Nat :=
  match name.data with
  | 'l' :: 'o' :: 'o' :: 'p' :: ds =>
    if ds ≠ [] ∧ ds.all Char.isDigit = true then some (digitsVal ds) else none
  | _ => none

/-! ## Machine model

The file system, the loop devices and the external tools the source calls.
A location in the file system is the list of path components leading to it
from `/`.  Path strings are resolved component by component, as the kernel
does: an empty component or `.` stays, `..` goes to the parent, and any other
component that is not the last one has to be an existing directory.  Symbolic
links are not modelled. -/

/-- A resolved location: the components leading to it from the root. -/
abbrev Path := List String

/-- One call into the operating system or to an external tool, with its
arguments.  Every call the source makes is appended to `World.log`, whether it
succeeds or fails. -/
inductive Step where
  /-- `fs.Mkdir(path)` -/
  | mkdir (path : String)
  /-- `ioutil.ReadDir(path)` -/
  | readDir (path : String)
  /-- `os.OpenFile(path, O_RDWR|O_CREAT|O_EXCL, 0755)` -/
  | openFile (path : String)
  /-- `syscall.Fallocate(fd, 0, 0, len)` on the file opened as `path` -/
  | fallocate (path : String) (len : Nat)
  /-- `mknod device b major minor` -/
  | mknod (device : String) (major : Nat) (minor : String)
  /-- `losetup -d device` -/
  | losetupDetach (device : String)
  /-- `losetup device backing` -/
  | losetupBind (device backing : String)
  /-- `mkfs.ext4 -L label device` -/
  | mkfs (label device : String)
  /-- `blkid -L label` -/
  | blkid (label : String)
  /-- `os.Remove(path)` -/
  | osRemove (path : String)
  deriving DecidableEq, Repr

/-- What a node of the file system is. -/
inductive Kind where
  | dir
  | regular
  | device
  deriving DecidableEq, Repr

/-- The state of the machine. -/
structure World where
  /-- working directory of the process, for relative paths -/
  cwd : Path
  /-- the nodes of the file system other than `/`, each with its kind; of two
  entries for one location only the first counts -/
  nodes : List (Path × Kind)
  /-- the bound loop devices, each with its backing file (as given to `losetup`) -/
  bound : List (String × String)
  /-- the file-system labels `blkid` can see, each with the device carrying it -/
  labels : List (String × String)
  /-- the calls made so far, oldest first -/
  log : List Step
  deriving DecidableEq, Repr

/-- Environmental failures: `f s = true` makes the call `s` fail for a reason
outside the model (no permission, disk full, tool missing, I/O error). -/
abbrev Faults := Step → Bool

/-- The world with one more call recorded. -/
def World.record (w : World) (s : Step) : World := { w with log := w.log ++ [s] }

/-- Splitting of a character list at every `/`; `acc` holds the current
component, reversed. -/
def splitChars : List Char → List Char → List (List Char)
  | acc, [] => [acc.reverse]
  | acc, c :: cs => if c = '/' then acc.reverse :: splitChars [] cs else splitChars (c :: acc) cs

/-- The components of a path string. -/
def splitPath (p : String) : List String := (splitChars [] p.data).map String.mk

/-- The kind of the node at a location, `none` when nothing is there. -/
def kindAt (nodes : List (Path × Kind)) (t : Path) : Option Kind :=
  (nodes.find? (fun n => n.1 = t)).map Prod.snd

/-- Walk from the directory `cur` through the components `cs`, each of which
has to lead to an existing directory. -/
def walk (nodes : List (Path × Kind)) : Path → List String → Option Path
  | cur, [] => some cur
  | cur, c :: cs =>
    if c = "" ∨ c = "." then walk nodes cur cs
    else if c = ".." then walk nodes cur.dropLast cs
    else if kindAt nodes (cur ++ [c]) = some .dir then walk nodes (cur ++ [c]) cs
    else none

/-- The last step of a resolution, from the directory `d` by the component `c`. -/
def lastStep (d : Path) (c : String) : Path :=
  if c = "" ∨ c = "." then d else if c = ".." then d.dropLast else d ++ [c]

/-- Resolution of a path string: the location it names, which need not exist,
or `none` when a directory on the way is missing (or the string is empty). -/
def resolveAt (cwd : Path) (nodes : List (Path × Kind)) (p : String) : Option Path :=
  match p.data with
  | [] => none
  | c :: _ =>
    let comps := splitPath p
    match walk nodes (if c = '/' then [] else cwd) comps.dropLast with
    | none => none
    | some d => some (lastStep d (comps.getLastD ""))

/-- Resolution of a path string in a world. -/
def World.resolve (w : World) (p : String) : Option Path := resolveAt w.cwd w.nodes p

/-- Whether something (the root, a directory or any other node) is at `t`. -/
def World.present (w : World) (t : Path) : Bool :=
  decide (t = []) || (kindAt w.nodes t).isSome

/-- Whether `t` is a directory. -/
def World.isDir (w : World) (t : Path) : Bool :=
  decide (t = []) || decide (kindAt w.nodes t = some .dir)

/-- Whether a path string names something that exists. -/
def World.pathExists (w : World) (p : String) : Bool :=
  match w.resolve p with
  | some t => w.present t
  | none => false

/-- How many regular files are at the location a path string names. -/
def World.countAt (w : World) (p : String) : Nat :=
  match w.resolve p with
  | some t => w.nodes.count (t, .regular)
  | none => 0

/-- The name under which `q` is an entry of the directory `d`, if it is one. -/
def childName (d : Path) (q : Path) : Option String :=
  if q.dropLast = d then q.getLast? else none

/-- The entries of the directory at `d`, sorted by name as `ioutil.ReadDir`
returns them. -/
def World.entries (w : World) (d : Path) : List String :=
  List.insertionSort (fun a b : String => a.data ≤ b.data)
    (w.nodes.filterMap (fun n => childName d n.1))

/-- `ioutil.ReadDir(path)`: the names of the entries of a directory. -/
def ReadDir (f : Faults) (path : String) (w : World) : Except Errno (List String) × World :=
  let w1 := w.record (.readDir path)
  match w.resolve path with
  | none => (.error .ENOENT, w1)
  | some t =>
    if w.isDir t then
      if f (.readDir path) then (.error .fault, w1) else (.ok (w.entries t), w1)
    else (.error .ENOENT, w1)

/-- An open file: the path it was opened by and the node it is. -/
structure File where
  name : String
  node : Path
  deriving DecidableEq, Repr

/-- `os.OpenFile(path, O_RDWR|O_CREAT|O_EXCL, 0755)`: creates a new regular
file, and fails with EEXIST when the path already names something. -/
def OpenFile (f : Faults) (path : String) (w : World) : Except Errno File × World :=
  let w1 := w.record (.openFile path)
  match w.resolve path with
  | none => (.error .ENOENT, w1)
  | some t =>
    if w.present t then (.error .EEXIST, w1)
    else if f (.openFile path) then (.error .fault, w1)
    else (.ok ⟨path, t⟩, { w1 with nodes := w.nodes ++ [(t, .regular)] })

/-- `syscall.Fallocate(fd, 0, 0, len)`; file sizes are not tracked. -/
def Fallocate (f : Faults) (file : File) (len : Nat) (w : World) : Except Errno Unit × World :=
  let w1 := w.record (.fallocate file.name len)
  if f (.fallocate file.name len) then (.error .fault, w1) else (.ok (), w1)

/-- `os.Remove(path)`: unlinks a file, or removes an empty directory. -/
def osRemove (f : Faults) (path : String) (w : World) : Except Errno Unit × World :=
  let w1 := w.record (.osRemove path)
  match w.resolve path with
  | none => (.error .ENOENT, w1)
  | some t =>
    if f (.osRemove path) then (.error .fault, w1)
    else if t = [] then (.error .EBUSY, w1)
    else match kindAt w.nodes t with
      | none => (.error .ENOENT, w1)
      | some .dir =>
        let c := (splitPath path).getLastD ""
        if c = "." then (.error .EINVAL, w1)
        else if c = ".." ∨ w.nodes.any (fun n => (childName t n.1).isSome) then
          (.error .ENOTEMPTY, w1)
        else (.ok (), { w1 with nodes := w.nodes.filter (fun n => n.1 ≠ t) })
      | some _ => (.ok (), { w1 with nodes := w.nodes.filter (fun n => n.1 ≠ t) })

/-- `mknod device b 7 minor`: creates a device node at a path that names
nothing yet. -/
def mknod (f : Faults) (device : String) (minor : String) (w : World) : Except Errno Unit × World :=
  let w1 := w.record (.mknod device 7 minor)
  match w.resolve device with
  | none => (.error .ENOENT, w1)
  | some t =>
    if w.present t then (.error .EEXIST, w1)
    else if f (.mknod device 7 minor) then (.error .fault, w1)
    else (.ok (), { w1 with nodes := w.nodes ++ [(t, .device)] })

/-- `losetup -d device`: detaches a bound loop device; its file system is no
longer visible to `blkid`. -/
def losetupDetach (f : Faults) (device : String) (w : World) : Except Errno Unit × World :=
  let w1 := w.record (.losetupDetach device)
  if f (.losetupDetach device) then (.error .fault, w1)
  else if device ∈ w.bound.map Prod.fst then
    (.ok (), { w1 with bound := w.bound.filter (fun b => b.1 ≠ device),
                       labels := w.labels.filter (fun l => l.2 ≠ device) })
  else (.error .ENODEV, w1)

/-- The kind of the node a path string names, `none` when there is none. -/
def World.kindOf (w : World) (p : String) : Option Kind :=
  match w.resolve p with
  | some t => kindAt w.nodes t
  | none => none

/-- `losetup device backing`: binds a free loop device node to an existing
regular file. -/
def losetupBind (f : Faults) (device backing : String) (w : World) : Except Errno Unit × World :=
  let w1 := w.record (.losetupBind device backing)
  if ¬ (w.kindOf device = some .device ∧ w.kindOf backing = some .regular) then
    (.error .ENOENT, w1)
  else if device ∈ w.bound.map Prod.fst then (.error .EBUSY, w1)
  else if f (.losetupBind device backing) then (.error .fault, w1)
  else (.ok (), { w1 with bound := (device, backing) :: w.bound })

/-- `mkfs.ext4 -L label device`: formats a bound device; the label becomes
the one `blkid` reports for it. -/
def mkfs (f : Faults) (label device : String) (w : World) : Except Errno Unit × World :=
  let w1 := w.record (.mkfs label device)
  if device ∉ w.bound.map Prod.fst then (.error .ENODEV, w1)
  else if f (.mkfs label device) then (.error .fault, w1)
  else (.ok (), { w1 with labels := (label, device) :: w.labels.filter (fun l => l.2 ≠ device) })

/-- `blkid -L label`: prints the device carrying the label, followed by a
newline, and exits non-zero when there is none. -/
def blkid (f : Faults) (label : String) (w : World) : Except Errno String × World :=
  let w1 := w.record (.blkid label)
  if f (.blkid label) then (.error .fault, w1)
  else match w.labels.find? (fun l => l.1 = label) with
    | some l => (.ok (l.2 ++ "\n"), w1)
    | none => (.error .ENOENT, w1)

/-- Modelled from the spec: `fs.Mkdir` of the package `fs`, which is not under
src/ ("idempotently guarantees the root directory exists, fails with an IO
error if it cannot be created"). -/
def Mkdir (f : Faults) (path : String) (w : World) : Except Errno Unit × World :=
  let w1 := w.record (.mkdir path)
  match w.resolve path with
  | none => (.error .ENOENT, w1)
  | some t =>
    if w.isDir t then (.ok (), w1)
    else if w.present t then (.error .EEXIST, w1)
    else if f (.mkdir path) then (.error .fault, w1)
    else (.ok (), { w1 with nodes := w.nodes ++ [(t, .dir)] })

/-! ## Go slices and JSON -/

/-- A Go slice: `none` is the nil slice, which `encoding/json` renders as
`null`, and `some []` an empty non-nil one. -/
abbrev GoSlice (α : Type) := Option (List α)

/-- Go `make([]T, 0, n)`. -/
def GoSlice.make {α : Type} : GoSlice α := some []

/-- Go `append(s, x)`. -/
def GoSlice.append {α : Type} (s : GoSlice α) (x : α) : GoSlice α := some (s.getD [] ++ [x])

/-- Go `json.Marshal` of a slice, `enc` rendering one element. -/
def jsonMarshal {α : Type} (enc : α → String) : GoSlice α → String
  | none => "null"
  | some xs => "[" ++ ",".intercalate (xs.map enc) ++ "]"

/-- Modelled from the spec: the record type `VolumeData`, declared outside
src/ ("each with at minimum a `name` field"); `list` sets only `Name`. -/
structure VolumeData where
  Name : String
  deriving DecidableEq, Repr

/-! ## The source file -/

/-- Files for loopback device backing are stored here. -/
def backingRoot : String := "/tmp/docker-volumes"

/-- `list` (source lines 52-62). -/
def list (f : Faults) (enc : VolumeData → String) (w : World) : Except Err String × World :=
  match ReadDir f backingRoot w with
  | (.error _, w1) => (.error (.readRoot backingRoot), w1)
  | (.ok files, w1) =>
    let volumes := files.foldl (fun vs file => GoSlice.append vs ⟨file⟩) GoSlice.make
    (.ok (jsonMarshal enc volumes), w1)

/-- `remove` (source lines 64-82).  The progress message the source prints
before `losetup -d` is not modelled. -/
def remove (f : Faults) (name : String) (w : World) : Except Err Unit × World :=
  let backing := backingRoot ++ "/" ++ name
  match blkid f name w with
  | (.error _, w1) => (.error (.findDevice backing), w1)
  | (.ok out, w1) =>
    let device := TrimRight out
    match losetupDetach f device w1 with
    | (.error e, w2) => (.error (.detach device e), w2)
    | (.ok _, w2) =>
      match osRemove f backing w2 with
      | (.error e, w3) => (.error (.removeBacking backing e), w3)
      | (.ok _, w3) =>
        match osRemove f device w3 with
        | (.error e, w4) => (.error (.osRemove device e), w4)
        | (.ok _, w4) => (.ok (), w4)

/-- `createBackingFile` (source lines 124-135). -/
def createBackingFile (f : Faults) (backing : String) (w : World) : Except Err Unit × World :=
  match OpenFile f backing w with
  | (.error e, w1) => (.error (.createBacking backing e), w1)
  | (.ok file, w1) =>
    match Fallocate f file (100 * 1024 * 1024) w1 with
    | (.error e, w2) => (.error (.allocate backing e), w2)
    | (.ok _, w2) => (.ok (), w2)

/-- `createDeviceNode` (source lines 137-145). -/
def createDeviceNode (f : Faults) (device : String) (loopbackCount : Int) (w : World) :
    Except Err Unit × World :=
  let count := fmtInt loopbackCount
  match mknod f device count w with
  | (.error e, w1) => (.error (.makeNode device e), w1)
  | (.ok _, w1) => (.ok (), w1)

/-- `setupLoopbackDevice` (source lines 147-154). -/
def setupLoopbackDevice (f : Faults) (backing device : String) (w : World) :
    Except Err Unit × World :=
  match losetupBind f device backing w with
  | (.error e, w1) => (.error (.setupLoopback device backing e), w1)
  | (.ok _, w1) => (.ok (), w1)

/-- `makeFilesystem` (source lines 156-163). -/
def makeFilesystem (f : Faults) (device label : String) (w : World) : Except Err Unit × World :=
  match mkfs f label device w with
  | (.error e, w1) => (.error (.makeFs device e), w1)
  | (.ok _, w1) => (.ok (), w1)

/-- `createBlockDevice` (source lines 84-104).  The result of the stale-binding
`losetup -d` is ignored, only its effect on the machine is kept. -/
def createBlockDevice (f : Faults) (label : String) (w : World) : Except Err Unit × World :=
  let backing := backingRoot ++ "/" ++ label
  match createBackingFile f backing w with
  | (.error e, w1) => (.error e, w1)
  | (.ok _, w1) =>
    match ReadDir f "/dev" w1 with
    | (rd, w2) =>
      match newLoopback rd with
      | .error e => (.error e, w2)
      | .ok (loopbackCount, device) =>
        match createDeviceNode f device loopbackCount w2 with
        | (.error e, w3) => (.error e, w3)
        | (.ok _, w3) =>
          let w4 := (losetupDetach f device w3).2
          match setupLoopbackDevice f backing device w4 with
          | (.error e, w5) => (.error e, w5)
          | (.ok _, w5) => makeFilesystem f device label w5

/-- `MockVmdkCmd.Run` (source lines 28-50); `none` is the nil byte slice, and
the options are not used. -/
def MockVmdkCmd.Run (f : Faults) (enc : VolumeData → String) (cmd name : String)
    (_opts : List (String × String)) (w : World) : Except Err (Option String) × World :=
  match Mkdir f backingRoot w with
  | (.error e, w1) => (.error (.mkdirRoot e), w1)
  | (.ok _, w1) =>
    if cmd = "create" then
      match createBlockDevice f name w1 with
      | (.error e, w2) => (.error e, w2)
      | (.ok _, w2) => (.ok none, w2)
    else if cmd = "list" then
      match list f enc w1 with
      | (.error e, w2) => (.error e, w2)
      | (.ok out, w2) => (.ok (some out), w2)
    else if cmd = "attach" then (.ok none, w1)
    else if cmd = "detach" then (.ok none, w1)
    else if cmd = "remove" then
      match remove f name w1 with
      | (.error e, w2) => (.error e, w2)
      | (.ok _, w2) => (.ok none, w2)
    else (.ok (some "null"), w1)

/-! ## Sample machines and environments -/

/-- The environment in which no call fails for an outside reason. -/
def noFaults : Faults := fun _ => false

/-- The environment in which only the pre-allocation fails (disk full). -/
def fallocateFails : Faults := fun s =>
  match s with
  | .fallocate _ _ => true
  | _ => false

/-- The environment in which only `losetup -d` fails. -/
def detachFails : Faults := fun s =>
  match s with
  | .losetupDetach _ => true
  | _ => false

/-- A machine with `/tmp`, an empty store `/tmp/docker-volumes` and a `/dev`
holding `loop1000` and `sda`; nothing is bound or labelled. -/
def freshWorld : World :=
  { cwd := [],
    nodes := [(["tmp"], .dir), (["tmp", "docker-volumes"], .dir), (["dev"], .dir),
              (["dev", "loop1000"], .device), (["dev", "sda"], .device)],
    bound := [], labels := [], log := [] }

/-- A machine with an empty store on which a loop device set up by somebody
else is bound to an image whose file system carries the label `x`. -/
def foreignLabelWorld : World :=
  { cwd := [],
    nodes := [(["tmp"], .dir), (["tmp", "docker-volumes"], .dir), (["dev"], .dir),
              (["dev", "loop7"], .device), (["srv"], .dir), (["srv", "disk.img"], .regular)],
    bound := [("/dev/loop7", "/srv/disk.img")], labels := [("x", "/dev/loop7")], log := [] }

/-- A machine whose store holds the backing files of the volumes `vol1` and
`vol2`, created in the other order. -/
def twoVolumeWorld : World :=
  { cwd := [],
    nodes := [(["tmp"], .dir), (["tmp", "docker-volumes"], .dir), (["dev"], .dir),
              (["tmp", "docker-volumes", "vol2"], .regular), (["dev", "loop1001"], .device),
              (["tmp", "docker-volumes", "vol1"], .regular), (["dev", "loop1002"], .device)],
    bound := [("/dev/loop1002", "/tmp/docker-volumes/vol1"),
              ("/dev/loop1001", "/tmp/docker-volumes/vol2")],
    labels := [("vol1", "/dev/loop1002"), ("vol2", "/dev/loop1001")], log := [] }

/-- A rendering of one record as a JSON object, for the examples. -/
def sampleEnc (v : VolumeData) : String := "\x7b\"Name\":\"" ++ v.Name ++ "\"\x7d"

/-- A volume name that is a single path component: not empty, without `/`,
and neither `.` nor `..`. -/
def validName (name : String) : Prop :=
  name ≠ "" ∧ '/' ∉ name.data ∧ name ≠ "." ∧ name ≠ ".."

instance (name : String) : Decidable (validName name) := by
  unfold validName; infer_instance

/-! ## Minor-number selection: lemmas -/

theorem loop_data : "loop".data = ['l', 'o', 'o', 'p'] := rfl

theorem foldl_loopbackStep_ge_init (L : List String) (c : Int) :
    c ≤ L.foldl loopbackStep c := by
  induction L generalizing c with
  | nil => simp
  | cons a L ih =>
    simp only [List.foldl_cons]
    refine le_trans ?_ (ih _)
    unfold loopbackStep
    split
    · split <;> omega
    · exact le_refl _

theorem foldl_loopbackStep_ge_mem (L : List String) (c : Int) (n : String) (s : Int)
    (hn : n ∈ L) (hs : Atoi (TrimPrefix n "loop") = some s) :
    s ≤ L.foldl loopbackStep c := by
  induction L generalizing c with
  | nil => simp at hn
  | cons a L ih =>
    simp only [List.foldl_cons]
    rcases List.mem_cons.mp hn with h | h
    · subst h
      refine le_trans ?_ (foldl_loopbackStep_ge_init L _)
      unfold loopbackStep
      rw [hs]
      simp only
      split <;> omega
    · exact ih _ h

theorem foldl_loopbackStep_cases (L : List String) (c : Int) :
    L.foldl loopbackStep c = c ∨
      ∃ n ∈ L, Atoi (TrimPrefix n "loop") = some (L.foldl loopbackStep c) := by
  induction L generalizing c with
  | nil => simp
  | cons a L ih =>
    simp only [List.foldl_cons]
    rcases ih (loopbackStep c a) with h | ⟨n, hn, h⟩
    · rw [h]
      unfold loopbackStep
      split
      · rename_i s hs
        split
        · right; exact ⟨a, List.mem_cons_self _ _, hs⟩
        · left; rfl
      · left; rfl
    · right; exact ⟨n, List.mem_cons_of_mem _ hn, h⟩

theorem isDigit_not_sign (c : Char) (h : c.isDigit = true) : ¬ (c = '-' ∨ c = '+') := by
  rintro (h' | h') <;> subst h' <;> simp [Char.isDigit] at h

theorem atoi_digits (ds : List Char) (hne : ds ≠ []) (hd : ds.all Char.isDigit = true) :
    Atoi ⟨ds⟩ = if (digitsVal ds : Int) ≤ maxInt then some (digitsVal ds : Int) else none := by
  cases ds with
  | nil => exact absurd rfl hne
  | cons c r =>
    have hc : c.isDigit = true := by
      simp only [List.all_cons, Bool.and_eq_true] at hd; exact hd.1
    have hs := isDigit_not_sign c hc
    have hm : ¬ c = '-' := fun h => hs (Or.inl h)
    have hmin : minInt ≤ (digitsVal (c :: r) : Int) := by
      have : (0 : Int) ≤ (digitsVal (c :: r) : Int) := Int.natCast_nonneg _
      unfold minInt; omega
    simp only [Atoi, if_neg hs, if_neg hm, hd, ne_eq, not_false_eq_true, and_self, if_true,
      hmin, true_and, reduceCtorEq]


theorem digitChar_isDigit (d : Nat) (h : d < 10) : (Nat.digitChar d).isDigit = true := by
  interval_cases d <;> rfl

theorem digitVal_digitChar (d : Nat) (h : d < 10) : digitVal (Nat.digitChar d) = d := by
  interval_cases d <;> rfl

theorem toDigitsCore_all (fuel n : Nat) (acc : List Char)
    (hacc : acc.all Char.isDigit = true) :
    (Nat.toDigitsCore 10 fuel n acc).all Char.isDigit = true := by
  induction fuel generalizing n acc with
  | zero => simpa [Nat.toDigitsCore] using hacc
  | succ fuel ih =>
    have hd : (Nat.digitChar (n % 10)).isDigit = true :=
      digitChar_isDigit _ (Nat.mod_lt _ (by norm_num))
    have hacc' : (Nat.digitChar (n % 10) :: acc).all Char.isDigit = true := by
      simp only [List.all_cons, hd, hacc, Bool.and_self]
    simp only [Nat.toDigitsCore]
    split
    · exact hacc'
    · exact ih _ _ hacc'

theorem toDigitsCore_ne_nil (fuel n : Nat) (acc : List Char) (h : 0 < fuel) :
    Nat.toDigitsCore 10 fuel n acc ≠ [] := by
  induction fuel generalizing n acc with
  | zero => omega
  | succ fuel ih =>
    simp only [Nat.toDigitsCore]
    split
    · simp
    · rename_i hne
      rcases Nat.eq_zero_or_pos fuel with h0 | hpos
      · subst h0; simp [Nat.toDigitsCore]
      · exact ih _ _ hpos

theorem toDigitsCore_val (fuel n : Nat) (acc : List Char) (h : n < fuel) :
    (Nat.toDigitsCore 10 fuel n acc).foldl (fun m c => m * 10 + digitVal c) 0 =
      acc.foldl (fun m c => m * 10 + digitVal c) n := by
  induction fuel generalizing n acc with
  | zero => omega
  | succ fuel ih =>
    simp only [Nat.toDigitsCore]
    split
    · rename_i h0
      have hn : n % 10 = n := by omega
      have hv := digitVal_digitChar _ (Nat.mod_lt n (by norm_num : 0 < 10))
      rw [hn] at hv
      simp only [List.foldl_cons, Nat.zero_mul, Nat.zero_add, hn, hv]
    · rename_i h0
      have hlt : n / 10 < fuel := by omega
      rw [ih _ _ hlt]
      simp only [List.foldl_cons, digitVal_digitChar _ (Nat.mod_lt n (by norm_num))]
      congr 1
      omega

theorem digitsVal_toDigits (n : Nat) : digitsVal (Nat.toDigits 10 n) = n := by
  unfold digitsVal Nat.toDigits
  rw [toDigitsCore_val _ _ _ (Nat.lt_succ_self n)]
  rfl

theorem atoi_fmtInt (N : Int) (h0 : 0 ≤ N) (h1 : N ≤ maxInt) : Atoi (fmtInt N) = some N := by
  have hneg : ¬ N < 0 := by omega
  unfold fmtInt
  have hne : Nat.toDigits 10 N.natAbs ≠ [] := toDigitsCore_ne_nil _ _ _ (Nat.succ_pos _)
  have hall : (Nat.toDigits 10 N.natAbs).all Char.isDigit = true :=
    toDigitsCore_all _ _ [] rfl
  rw [if_neg hneg, atoi_digits _ hne hall, digitsVal_toDigits]
  have : (N.natAbs : Int) = N := Int.natAbs_of_nonneg h0
  rw [this, if_pos h1]

theorem trimPrefix_loop_append (s : String) : TrimPrefix ("loop" ++ s) "loop" = s := by
  unfold TrimPrefix
  have h : ("loop" ++ s).data = 'l' :: 'o' :: 'o' :: 'p' :: s.data := by
    rw [String.data_append]; rfl
  rw [h, loop_data]
  simp

theorem atoi_of_loopSuffix (n : String) (k : Nat) (h : loopSuffix n = some k) :
    Atoi (TrimPrefix n "loop") = if (k : Int) ≤ maxInt then some (k : Int) else none := by
  unfold loopSuffix at h
  split at h
  · rename_i ds hdata
    split at h
    · rename_i hds
      simp only [Option.some.injEq] at h
      subst h
      have ht : TrimPrefix n "loop" = ⟨ds⟩ := by
        unfold TrimPrefix
        rw [hdata, loop_data]
        simp
      rw [ht]
      exact atoi_digits ds hds.1 hds.2
    · simp at h
  · simp at h


theorem atoi_le_maxInt (s : String) (v : Int) (h : Atoi s = some v) : v ≤ maxInt := by
  unfold Atoi at h
  split at h
  · exact absurd h (by simp)
  · dsimp only at h
    split_ifs at h <;> simp only [Option.some.injEq] at h <;> subst h <;> tauto

theorem wrapInt_of_range (x : Int) (h0 : minInt ≤ x) (h1 : x ≤ maxInt) : wrapInt x = x := by
  unfold wrapInt
  unfold minInt at h0
  unfold maxInt at h1
  omega

/-! ## Minor-number selection: the claims -/

/-- C1 (counterexample): the listing holding only `loop9223372036854775808` has
the largest numeric loop suffix M = 2^63 >= 1000, yet the minor number
`getMaxLoopbackCount() + 1` is 1001 and not M + 1, because `strconv.Atoi`
rejects a number outside the range of `int` and the name is skipped. -/
theorem C1_counterexample :
    (∃ n ∈ ["loop9223372036854775808"], loopSuffix n = some 9223372036854775808) ∧
    (∀ n ∈ ["loop9223372036854775808"], ∀ k, loopSuffix n = some k → k ≤ 9223372036854775808) ∧
    1000 ≤ 9223372036854775808 ∧
    newLoopback (.ok ["loop9223372036854775808"]) = .ok (1001, "/dev/loop1001") ∧
    (1001 : Int) ≠ 9223372036854775808 + 1 := by
  refine ⟨⟨_, List.mem_singleton_self _, by decide⟩, ?_, by decide, by decide, by decide⟩
  intro n hn k hk
  rw [List.mem_singleton] at hn
  subst hn
  have h : loopSuffix "loop9223372036854775808" = some 9223372036854775808 := by decide
  rw [h] at hk
  simp only [Option.some.injEq] at hk
  omega

/-- C1 (amended): for every /dev listing in which every name that yields a
number is of the form loop<decimal digits>, and whose largest numeric loop
suffix M satisfies 1000 <= M < 2^63 - 1, the minor number that
createBlockDevice uses (`getMaxLoopbackCount() + 1`) equals M + 1, and the
device path is /dev/loop<M+1>. -/
theorem C1_minor_is_max_suffix_plus_one (L : List String) (M : Nat)
    (hform : ∀ n ∈ L, Atoi (TrimPrefix n "loop") ≠ none → loopSuffix n ≠ none)
    (hmem : ∃ n ∈ L, loopSuffix n = some M)
    (hmax : ∀ n ∈ L, ∀ k, loopSuffix n = some k → k ≤ M)
    (hlo : 1000 ≤ M) (hhi : (M : Int) < maxInt) :
    newLoopback (.ok L) = .ok ((M : Int) + 1, "/dev/loop" ++ fmtInt ((M : Int) + 1)) := by
  have hcount : L.foldl loopbackStep 1000 = (M : Int) := by
    apply le_antisymm
    · rcases foldl_loopbackStep_cases L 1000 with h | ⟨n, hn, h⟩
      · rw [h]; omega
      · have hs : loopSuffix n ≠ none := hform n hn (by rw [h]; simp)
        obtain ⟨k, hk⟩ := Option.ne_none_iff_exists'.mp hs
        have ha := atoi_of_loopSuffix n k hk
        rw [h] at ha
        split at ha
        · simp only [Option.some.injEq] at ha
          rw [ha]
          exact_mod_cast hmax n hn k hk
        · simp at ha
    · obtain ⟨n, hn, hk⟩ := hmem
      have ha := atoi_of_loopSuffix n M hk
      rw [if_pos (le_of_lt hhi)] at ha
      exact foldl_loopbackStep_ge_mem L 1000 n M hn ha
  have hw : wrapInt ((M : Int) + 1) = (M : Int) + 1 :=
    wrapInt_of_range _ (by unfold minInt; omega) (by omega)
  simp only [newLoopback, getMaxLoopbackCount, hcount, hw]

/-- C1 (witness): with loop1000..loop1005 present the minor number is 1006. -/
theorem C1_minor_is_max_suffix_plus_one_witness :
    newLoopback (.ok ["loop1000", "loop1001", "loop1002", "loop1003", "loop1004", "loop1005"])
      = .ok (((1005 : Nat) : Int) + 1, "/dev/loop" ++ fmtInt (((1005 : Nat) : Int) + 1)) ∧
    ("/dev/loop" ++ fmtInt (((1005 : Nat) : Int) + 1)) = "/dev/loop1006" :=
  ⟨C1_minor_is_max_suffix_plus_one _ 1005 (by decide)
    ⟨"loop1005", by decide, by decide⟩
    (by
      intro n hn k hk
      have h : ∀ m ∈ ["loop1000", "loop1001", "loop1002", "loop1003", "loop1004", "loop1005"],
          ∀ j ∈ loopSuffix m, j ≤ 1005 := by decide
      exact h n hn k hk)
    (by decide) (by decide), by decide⟩


/-- C2 (counterexample): with an empty /dev listing (no loop device node) the
minor number `getMaxLoopbackCount() + 1` is 1001, not 1000, and the device
path is /dev/loop1001, not /dev/loop1000. -/
theorem C2_counterexample :
    (∀ n ∈ ([] : List String), loopSuffix n = none) ∧
    newLoopback (.ok []) = .ok (1001, "/dev/loop1001") ∧
    (1001 : Int) ≠ 1000 ∧ "/dev/loop1001" ≠ "/dev/loop1000" := by
  decide

/-- C2 (amended): when the /dev listing contains no loop device node (no name
with a numeric loop suffix), and no other name that yields a number, the minor
number selected for a new volume is 1001 and the device path is
/dev/loop1001. -/
theorem C2_first_minor_is_1001 (L : List String)
    (hnone : ∀ n ∈ L, loopSuffix n = none)
    (hform : ∀ n ∈ L, Atoi (TrimPrefix n "loop") ≠ none → loopSuffix n ≠ none) :
    newLoopback (.ok L) = .ok (1001, "/dev/loop1001") := by
  have hcount : L.foldl loopbackStep 1000 = 1000 := by
    rcases foldl_loopbackStep_cases L 1000 with h | ⟨n, hn, h⟩
    · exact h
    · exact absurd (hnone n hn) (hform n hn (by rw [h]; simp))
  simp only [newLoopback, getMaxLoopbackCount, hcount]
  decide

/-- C2 (witness): a /dev listing without loop device nodes. -/
theorem C2_first_minor_is_1001_witness :
    newLoopback (.ok ["null", "sda", "tty0", "loop-control"]) = .ok (1001, "/dev/loop1001") :=
  C2_first_minor_is_1001 _ (by decide) (by decide)

/-- C3 (counterexample): with `loop9223372036854775807` present the addition
`getMaxLoopbackCount() + 1` overflows: N is -2^63, which is below 1000, and
the derived path /dev/loop-9223372036854775808 is the name of an entry of
the listing. -/
theorem C3_counterexample :
    newLoopback (.ok ["loop-9223372036854775808", "loop9223372036854775807"])
      = .ok (-9223372036854775808, "/dev/loop-9223372036854775808") ∧
    "loop" ++ fmtInt (-9223372036854775808)
      ∈ ["loop-9223372036854775808", "loop9223372036854775807"] ∧
    ¬ (1000 : Int) ≤ -9223372036854775808 := by
  decide

/-- C3 (amended): for every /dev listing in which no name yields the largest
`int` value 2^63 - 1, the device path /dev/loop<N> that createBlockDevice
derives (N = `getMaxLoopbackCount() + 1`) is free: no entry of the listing is
named loop<N>, and N >= 1000. -/
theorem C3_derived_device_is_free (L : List String)
    (hmax : ∀ n ∈ L, Atoi (TrimPrefix n "loop") ≠ some maxInt) :
    ∃ N : Int, newLoopback (.ok L) = .ok (N, "/dev/loop" ++ fmtInt N) ∧
      1000 ≤ N ∧ "loop" ++ fmtInt N ∉ L := by
  have hge : (1000 : Int) ≤ L.foldl loopbackStep 1000 := foldl_loopbackStep_ge_init L 1000
  have hlt : L.foldl loopbackStep 1000 < maxInt := by
    rcases foldl_loopbackStep_cases L 1000 with h | ⟨n, hn, h⟩
    · rw [h]; decide
    · exact lt_of_le_of_ne (atoi_le_maxInt _ _ h) (fun he => hmax n hn (by rw [h, he]))
  have hw : wrapInt (L.foldl loopbackStep 1000 + 1) = L.foldl loopbackStep 1000 + 1 :=
    wrapInt_of_range _ (by unfold minInt; omega) (by omega)
  refine ⟨L.foldl loopbackStep 1000 + 1, ?_, by omega, ?_⟩
  · simp only [newLoopback, getMaxLoopbackCount, hw]
  · intro hmem
    have ha : Atoi (TrimPrefix ("loop" ++ fmtInt (L.foldl loopbackStep 1000 + 1)) "loop")
        = some (L.foldl loopbackStep 1000 + 1) := by
      rw [trimPrefix_loop_append]
      exact atoi_fmtInt _ (by omega) (by omega)
    have := foldl_loopbackStep_ge_mem L 1000 _ _ hmem ha
    omega

/-- C3 (witness): with loop1000 and loop1001 present, /dev/loop1002 is free. -/
theorem C3_derived_device_is_free_witness :
    ∃ N : Int, newLoopback (.ok ["loop1000", "loop1001", "sda"])
        = .ok (N, "/dev/loop" ++ fmtInt N) ∧
      1000 ≤ N ∧ "loop" ++ fmtInt N ∉ ["loop1000", "loop1001", "sda"] :=
  C3_derived_device_is_free _ (by decide)

/-- C10 (code at the failing input): an entry named `2000`, which does not
start with `loop`, raises the result of `getMaxLoopbackCount` from 1000 to
2000, because `strings.TrimPrefix` returns a name without the prefix
unchanged and the source never tests that the prefix was there. -/
theorem C10_name_without_prefix_is_counted :
    ¬ ("loop".data <+: "2000".data) ∧
    getMaxLoopbackCount (.ok []) = .ok 1000 ∧
    getMaxLoopbackCount (.ok ["2000"]) = .ok 2000 ∧
    newLoopback (.ok ["loop1000", "2000"]) = .ok (2001, "/dev/loop2001") := by
  decide


/-! ## Machine model: lemmas -/

theorem kindAt_append (l : List (Path × Kind)) (t q : Path) (k : Kind) :
    kindAt (l ++ [(t, k)]) q =
      match kindAt l q with
      | some k0 => some k0
      | none => if t = q then some k else none := by
  unfold kindAt
  rw [List.find?_append]
  cases h : List.find? (fun n => decide (n.1 = q)) l with
  | some n => simp
  | none =>
    by_cases htq : t = q
    · simp [htq]
    · simp [htq]

theorem kindAt_filter (l : List (Path × Kind)) (t q : Path) :
    kindAt (l.filter (fun n => n.1 ≠ t)) q = if q = t then none else kindAt l q := by
  unfold kindAt
  induction l with
  | nil => simp
  | cons a l ih =>
    by_cases hat : a.1 = t
    · have hf : List.filter (fun n => decide (n.1 ≠ t)) (a :: l)
          = List.filter (fun n => decide (n.1 ≠ t)) l := by
        simp [List.filter_cons, hat]
      rw [hf, ih]
      by_cases hq : q = t
      · simp [hq]
      · have haq : ¬ a.1 = q := fun h => hq (h.symm.trans hat)
        simp [hq, List.find?_cons, haq]
    · have hf : List.filter (fun n => decide (n.1 ≠ t)) (a :: l)
          = a :: List.filter (fun n => decide (n.1 ≠ t)) l := by
        simp [List.filter_cons, hat]
      rw [hf]
      by_cases haq : a.1 = q
      · have hq : ¬ q = t := fun h => hat (haq.trans h)
        simp [List.find?_cons, haq, hq]
      · simp only [List.find?_cons, haq, decide_False]
        exact ih

/-- Resolution through fewer directories, when it succeeds, agrees with the
resolution through more. -/
theorem walk_mono (n1 n2 : List (Path × Kind))
    (hsub : ∀ q, kindAt n1 q = some .dir → kindAt n2 q = some .dir)
    (cs : List String) (cur t : Path) (h : walk n1 cur cs = some t) :
    walk n2 cur cs = some t := by
  induction cs generalizing cur with
  | nil => simpa [walk] using h
  | cons c cs ih =>
    unfold walk at h ⊢
    split_ifs at h with h1 h2 h3
    · rw [if_pos h1]; exact ih _ h
    · rw [if_neg h1, if_pos h2]; exact ih _ h
    · rw [if_neg h1, if_neg h2, if_pos (hsub _ h3)]; exact ih _ h

theorem resolveAt_mono (cwd : Path) (n1 n2 : List (Path × Kind))
    (hsub : ∀ q, kindAt n1 q = some .dir → kindAt n2 q = some .dir)
    (p : String) (t : Path) (h : resolveAt cwd n1 p = some t) :
    resolveAt cwd n2 p = some t := by
  unfold resolveAt at h ⊢
  split at h
  · simp at h
  · rename_i c r hd
    simp only at h ⊢
    cases hw : walk n1 (if c = '/' then [] else cwd) (splitPath p).dropLast with
    | none => rw [hw] at h; simp at h
    | some d =>
      rw [hw] at h
      rw [walk_mono n1 n2 hsub _ _ _ hw]
      exact h


theorem ReadDir_snd (f : Faults) (p : String) (w : World) :
    (ReadDir f p w).2 = w.record (.readDir p) := by
  unfold ReadDir
  simp only
  split
  · rfl
  · split_ifs <;> rfl

theorem Fallocate_snd (f : Faults) (file : File) (len : Nat) (w : World) :
    (Fallocate f file len w).2 = w.record (.fallocate file.name len) := by
  unfold Fallocate
  simp only
  split_ifs <;> rfl

theorem OpenFile_exists (f : Faults) (p : String) (w : World) (t : Path)
    (hres : w.resolve p = some t) (hp : w.present t = true) :
    OpenFile f p w = (.error .EEXIST, w.record (.openFile p)) := by
  unfold OpenFile
  simp only [hres, hp, if_true]

theorem OpenFile_spec (f : Faults) (p : String) (w : World) (r : Except Errno File)
    (w1 : World) (h : OpenFile f p w = (r, w1)) :
    (∃ e, r = .error e ∧ w1 = w.record (.openFile p)) ∨
    (∃ t, w.resolve p = some t ∧ w.present t = false ∧ r = .ok ⟨p, t⟩ ∧
      w1 = { w.record (.openFile p) with nodes := w.nodes ++ [(t, .regular)] }) := by
  unfold OpenFile at h
  cases hres : w.resolve p with
  | none =>
    simp only [hres, Prod.mk.injEq] at h
    exact Or.inl ⟨_, h.1.symm, h.2.symm⟩
  | some t =>
    simp only [hres] at h
    split_ifs at h with hp hf
    · simp only [Prod.mk.injEq] at h
      exact Or.inl ⟨_, h.1.symm, h.2.symm⟩
    · simp only [Prod.mk.injEq] at h
      exact Or.inl ⟨_, h.1.symm, h.2.symm⟩
    · simp only [Prod.mk.injEq] at h
      exact Or.inr ⟨t, rfl, by simpa using hp, h.1.symm, h.2.symm⟩

theorem mknod_spec (f : Faults) (dev minor : String) (w : World) (r : Except Errno Unit)
    (w1 : World) (h : mknod f dev minor w = (r, w1)) :
    (∃ e, r = .error e ∧ w1 = w.record (.mknod dev 7 minor)) ∨
    (∃ t, w.resolve dev = some t ∧ w.present t = false ∧ r = .ok () ∧
      w1 = { w.record (.mknod dev 7 minor) with nodes := w.nodes ++ [(t, .device)] }) := by
  unfold mknod at h
  cases hres : w.resolve dev with
  | none =>
    simp only [hres, Prod.mk.injEq] at h
    exact Or.inl ⟨_, h.1.symm, h.2.symm⟩
  | some t =>
    simp only [hres] at h
    split_ifs at h with hp hf
    · simp only [Prod.mk.injEq] at h
      exact Or.inl ⟨_, h.1.symm, h.2.symm⟩
    · simp only [Prod.mk.injEq] at h
      exact Or.inl ⟨_, h.1.symm, h.2.symm⟩
    · simp only [Prod.mk.injEq] at h
      exact Or.inr ⟨t, rfl, by simpa using hp, h.1.symm, h.2.symm⟩

theorem losetupDetach_spec (f : Faults) (dev : String) (w : World) (r : Except Errno Unit)
    (w1 : World) (h : losetupDetach f dev w = (r, w1)) :
    (∃ e, r = .error e ∧ w1 = w.record (.losetupDetach dev)) ∨
    (r = .ok () ∧
      w1 = { w.record (.losetupDetach dev) with
              bound := w.bound.filter (fun b => b.1 ≠ dev),
              labels := w.labels.filter (fun l => l.2 ≠ dev) }) := by
  unfold losetupDetach at h
  simp only at h
  split_ifs at h <;> simp only [Prod.mk.injEq] at h <;>
    first
    | exact Or.inl ⟨_, h.1.symm, h.2.symm⟩
    | exact Or.inr ⟨h.1.symm, h.2.symm⟩

theorem losetupBind_spec (f : Faults) (dev backing : String) (w : World)
    (r : Except Errno Unit) (w1 : World) (h : losetupBind f dev backing w = (r, w1)) :
    (∃ e, r = .error e ∧ w1 = w.record (.losetupBind dev backing)) ∨
    (r = .ok () ∧
      w1 = { w.record (.losetupBind dev backing) with bound := (dev, backing) :: w.bound }) := by
  unfold losetupBind at h
  simp only at h
  split_ifs at h <;> simp only [Prod.mk.injEq] at h <;>
    first
    | exact Or.inl ⟨_, h.1.symm, h.2.symm⟩
    | exact Or.inr ⟨h.1.symm, h.2.symm⟩

theorem mkfs_spec (f : Faults) (label dev : String) (w : World)
    (r : Except Errno Unit) (w1 : World) (h : mkfs f label dev w = (r, w1)) :
    (∃ e, r = .error e ∧ w1 = w.record (.mkfs label dev)) ∨
    (r = .ok () ∧
      w1 = { w.record (.mkfs label dev) with
              labels := (label, dev) :: w.labels.filter (fun l => l.2 ≠ dev) }) := by
  unfold mkfs at h
  simp only at h
  split_ifs at h <;> simp only [Prod.mk.injEq] at h <;>
    first
    | exact Or.inl ⟨_, h.1.symm, h.2.symm⟩
    | exact Or.inr ⟨h.1.symm, h.2.symm⟩

theorem blkid_snd (f : Faults) (label : String) (w : World) :
    (blkid f label w).2 = w.record (.blkid label) := by
  unfold blkid
  simp only
  split_ifs
  · rfl
  · split <;> rfl

theorem blkid_none (f : Faults) (label : String) (w : World)
    (h : w.labels.find? (fun l => l.1 = label) = none) :
    ∃ e, blkid f label w = (.error e, w.record (.blkid label)) := by
  unfold blkid
  simp only [h]
  split_ifs
  · exact ⟨_, rfl⟩
  · exact ⟨_, rfl⟩

theorem osRemove_spec (f : Faults) (p : String) (w : World) (r : Except Errno Unit)
    (w1 : World) (h : osRemove f p w = (r, w1)) :
    (∃ e, r = .error e ∧ w1 = w.record (.osRemove p)) ∨
    (∃ t, w.resolve p = some t ∧ t ≠ [] ∧ (kindAt w.nodes t).isSome = true ∧ r = .ok () ∧
      w1 = { w.record (.osRemove p) with nodes := w.nodes.filter (fun n => n.1 ≠ t) }) := by
  unfold osRemove at h
  cases hres : w.resolve p with
  | none =>
    simp only [hres, Prod.mk.injEq] at h
    exact Or.inl ⟨_, h.1.symm, h.2.symm⟩
  | some t =>
    simp only [hres] at h
    cases hk : kindAt w.nodes t with
    | none =>
      simp only [hk] at h
      split_ifs at h <;> simp only [Prod.mk.injEq] at h <;>
        exact Or.inl ⟨_, h.1.symm, h.2.symm⟩
    | some k =>
      have hsome : (kindAt w.nodes t).isSome = true := by rw [hk]; rfl
      cases k <;> simp only [hk] at h <;> split_ifs at h with hf ht <;>
        simp only [Prod.mk.injEq] at h <;>
        first
        | exact Or.inl ⟨_, h.1.symm, h.2.symm⟩
        | exact Or.inr ⟨t, rfl, ht, hsome, h.1.symm, h.2.symm⟩

theorem osRemove_absent (f : Faults) (p : String) (w : World)
    (h : w.pathExists p = false) :
    ∃ e, osRemove f p w = (.error e, w.record (.osRemove p)) := by
  unfold World.pathExists at h
  unfold osRemove
  cases hres : w.resolve p with
  | none => exact ⟨_, rfl⟩
  | some t =>
    simp only [hres] at h ⊢
    unfold World.present at h
    simp only [Bool.or_eq_false_iff, decide_eq_false_iff_not] at h
    have hk : kindAt w.nodes t = none := by
      cases hk : kindAt w.nodes t with
      | none => rfl
      | some k => rw [hk] at h; simp at h
    simp only [hk]
    split_ifs <;> exact ⟨_, rfl⟩


theorem createBackingFile_exists (f : Faults) (p : String) (w : World) (t : Path)
    (hres : w.resolve p = some t) (hp : w.present t = true) :
    createBackingFile f p w = (.error (.createBacking p .EEXIST), w.record (.openFile p)) := by
  unfold createBackingFile
  rw [OpenFile_exists f p w t hres hp]

theorem createBackingFile_spec (f : Faults) (p : String) (w : World) (r : Except Err Unit)
    (w1 : World) (h : createBackingFile f p w = (r, w1)) :
    (∃ c, r = .error (.createBacking p c) ∧ w1 = w.record (.openFile p)) ∨
    (∃ t, w.resolve p = some t ∧ w.present t = false ∧
      w1 = { w with nodes := w.nodes ++ [(t, .regular)],
                    log := w.log ++ [.openFile p, .fallocate p (100 * 1024 * 1024)] } ∧
      (r = .ok () ∨ ∃ c, r = .error (.allocate p c))) := by
  unfold createBackingFile at h
  rcases ho : OpenFile f p w with ⟨ro, wo⟩
  rw [ho] at h
  rcases OpenFile_spec f p w ro wo ho with ⟨e, hr, hw⟩ | ⟨t, hres, hp, hr, hw⟩
  · subst hr hw
    simp only [Prod.mk.injEq] at h
    exact Or.inl ⟨e, h.1.symm, h.2.symm⟩
  · subst hr hw
    refine Or.inr ⟨t, hres, hp, ?_⟩
    unfold Fallocate at h
    simp only at h
    split_ifs at h <;> simp only [Prod.mk.injEq] at h
    · refine ⟨?_, Or.inr ⟨_, h.1.symm⟩⟩
      rw [← h.2]
      simp [World.record]
    · refine ⟨?_, Or.inl h.1.symm⟩
      rw [← h.2]
      simp [World.record]

theorem createBlockDevice_of_backing_error (f : Faults) (name : String) (w w1 : World)
    (e : Err) (h : createBackingFile f (backingRoot ++ "/" ++ name) w = (.error e, w1)) :
    createBlockDevice f name w = (.error e, w1) := by
  unfold createBlockDevice
  simp only [h]

/-- What `createBlockDevice` leaves behind in the file system: nothing when its
exclusive open failed, and otherwise the new backing file, followed by the new
device node when the call got as far as creating it (as every successful call
does). -/
theorem createBlockDevice_spec (f : Faults) (name : String) (w w1 : World)
    (r : Except Err Unit) (h : createBlockDevice f name w = (r, w1)) :
    (∃ c, r = .error (.createBacking (backingRoot ++ "/" ++ name) c) ∧
      w1 = w.record (.openFile (backingRoot ++ "/" ++ name))) ∨
    (∃ t, w.resolve (backingRoot ++ "/" ++ name) = some t ∧ w.present t = false ∧
      w1.cwd = w.cwd ∧
      ((r ≠ .ok () ∧ w1.nodes = w.nodes ++ [(t, .regular)]) ∨
       (∃ t2, t2 ≠ t ∧ w1.nodes = w.nodes ++ [(t, .regular), (t2, .device)]))) := by
  unfold createBlockDevice at h
  simp only at h
  rcases hb : createBackingFile f (backingRoot ++ "/" ++ name) w with ⟨rb, wb⟩
  rw [hb] at h
  rcases createBackingFile_spec f _ w rb wb hb with ⟨c, hr, hw⟩ | ⟨t, hres, hp, hw, hr | ⟨c, hr⟩⟩
  · subst hr
    simp only [Prod.mk.injEq] at h
    exact Or.inl ⟨c, h.1.symm, by rw [← h.2]; exact hw⟩
  swap
  · subst hr
    simp only [Prod.mk.injEq] at h
    refine Or.inr ⟨t, hres, hp, ?_, Or.inl ⟨?_, ?_⟩⟩
    · rw [← h.2, hw]
    · rw [← h.1]; simp
    · rw [← h.2, hw]
  · subst hr
    simp only at h
    rcases hrd : ReadDir f "/dev" wb with ⟨rd, wr⟩
    have hwr : wr = wb.record (.readDir "/dev") := by
      have := ReadDir_snd f "/dev" wb
      rw [hrd] at this; exact this
    have hwrn : wr.cwd = w.cwd ∧ wr.nodes = w.nodes ++ [(t, .regular)] := by
      subst hwr hw; exact ⟨rfl, rfl⟩
    rw [hrd] at h
    simp only at h
    refine Or.inr ⟨t, hres, hp, ?_⟩
    cases hn : newLoopback rd with
    | error e =>
      rw [hn] at h
      simp only [Prod.mk.injEq] at h
      refine ⟨by rw [← h.2]; exact hwrn.1, Or.inl ⟨by rw [← h.1]; simp, by rw [← h.2]; exact hwrn.2⟩⟩
    | ok nd =>
      obtain ⟨N, dev⟩ := nd
      rw [hn] at h
      simp only at h
      unfold createDeviceNode at h
      simp only at h
      rcases hm : mknod f dev (fmtInt N) wr with ⟨rm, wm⟩
      rw [hm] at h
      rcases mknod_spec f dev (fmtInt N) wr rm wm hm with ⟨e, hr, hw'⟩ | ⟨t2, hres2, hp2, hr, hw'⟩
      · subst hr
        simp only [Prod.mk.injEq] at h
        refine ⟨by rw [← h.2, hw']; exact hwrn.1,
          Or.inl ⟨by rw [← h.1]; simp, by rw [← h.2, hw']; exact hwrn.2⟩⟩
      · subst hr
        simp only at h
        have hnodes : wm.nodes = w.nodes ++ [(t, .regular), (t2, .device)] := by
          rw [hw']
          show wr.nodes ++ [(t2, Kind.device)] = _
          rw [hwrn.2]; simp
        have hcwd : wm.cwd = w.cwd := by
          rw [hw']; exact hwrn.1
        have hne : t2 ≠ t := by
          rintro rfl
          have hpres : wr.present t2 = true := by
            unfold World.present
            rw [hwrn.2, kindAt_append]
            cases kindAt w.nodes t2 <;> simp
          rw [hpres] at hp2
          exact Bool.noConfusion hp2
        rcases hd : losetupDetach f dev wm with ⟨rdt, wd⟩
        rw [hd] at h
        simp only at h
        have hwd : wd.cwd = wm.cwd ∧ wd.nodes = wm.nodes := by
          rcases losetupDetach_spec f dev wm rdt wd hd with ⟨e, _, hw''⟩ | ⟨_, hw''⟩ <;>
            subst hw'' <;> exact ⟨rfl, rfl⟩
        unfold setupLoopbackDevice at h
        rcases hs : losetupBind f dev (backingRoot ++ "/" ++ name) wd with ⟨rs, ws⟩
        rw [hs] at h
        have hws : ws.cwd = wd.cwd ∧ ws.nodes = wd.nodes := by
          rcases losetupBind_spec f dev _ wd rs ws hs with ⟨e, _, hw''⟩ | ⟨_, hw''⟩ <;>
            subst hw'' <;> exact ⟨rfl, rfl⟩
        cases rs with
        | error e =>
          simp only [Prod.mk.injEq] at h
          exact ⟨by rw [← h.2, hws.1, hwd.1, hcwd],
            Or.inr ⟨t2, hne, by rw [← h.2, hws.2, hwd.2, hnodes]⟩⟩
        | ok u =>
          simp only at h
          unfold makeFilesystem at h
          rcases hk : mkfs f name dev ws with ⟨rk, wk⟩
          rw [hk] at h
          have hwk : wk.cwd = ws.cwd ∧ wk.nodes = ws.nodes := by
            rcases mkfs_spec f name dev ws rk wk hk with ⟨e, _, hw''⟩ | ⟨_, hw''⟩ <;>
              subst hw'' <;> exact ⟨rfl, rfl⟩
          have hw1 : w1 = wk := by
            cases rk <;> simp only [Prod.mk.injEq] at h <;> exact h.2.symm
          exact ⟨by rw [hw1, hwk.1, hws.1, hwd.1, hcwd],
            Or.inr ⟨t2, hne, by rw [hw1, hwk.2, hws.2, hwd.2, hnodes]⟩⟩

/-- What a successful `createBlockDevice` leaves behind in the file system:
the new backing file and the new device node, and nothing else. -/
theorem createBlockDevice_ok (f : Faults) (name : String) (w w1 : World)
    (h : createBlockDevice f name w = (.ok (), w1)) :
    ∃ t t2, w.resolve (backingRoot ++ "/" ++ name) = some t ∧ w.present t = false ∧
      t2 ≠ t ∧ w1.cwd = w.cwd ∧ w1.nodes = w.nodes ++ [(t, .regular), (t2, .device)] := by
  rcases createBlockDevice_spec f name w w1 _ h with ⟨c, hr, _⟩ | ⟨t, hres, hp, hc, hn⟩
  · simp at hr
  · rcases hn with ⟨hr, _⟩ | ⟨t2, hne, hn⟩
    · exact absurd rfl hr
    · exact ⟨t, t2, hres, hp, hne, hc, hn⟩

theorem resolve_congr (w w1 : World) (hc : w1.cwd = w.cwd) (hn : w1.nodes = w.nodes)
    (p : String) : w1.resolve p = w.resolve p := by
  unfold World.resolve; rw [hc, hn]

theorem record_resolve (w : World) (s : Step) (p : String) :
    (w.record s).resolve p = w.resolve p := rfl

theorem kindAt_isDir_append (l : List (Path × Kind)) (t : Path) (k : Kind) (q : Path)
    (h : kindAt l q = some .dir) : kindAt (l ++ [(t, k)]) q = some .dir := by
  rw [kindAt_append, h]

/-- Adding nodes at the end of the node list never changes where a path that
already resolved leads. -/
theorem resolveAt_append (cwd : Path) (l : List (Path × Kind)) (t : Path) (k : Kind)
    (p : String) (u : Path) (h : resolveAt cwd l p = some u) :
    resolveAt cwd (l ++ [(t, k)]) p = some u :=
  resolveAt_mono cwd l _ (fun q hq => kindAt_isDir_append l t k q hq) p u h

/-! ## create: the claims -/

/-- C4: calling `create(name)` twice with no remove in between, the first call
having got past its own exclusive open (in particular when it succeeded),
makes the second call fail in `createBackingFile` with the already-exists
error of the exclusive open; the second call makes no call after that open
(no device node, bind or format step) and exactly one backing file is at
root/name afterwards. -/
theorem C4_second_create_fails_already_exists (f1 f2 : Faults) (name : String) (w : World)
    (h : ∀ c, (createBlockDevice f1 name w).1
      ≠ .error (.createBacking (backingRoot ++ "/" ++ name) c)) :
    createBlockDevice f2 name (createBlockDevice f1 name w).2
      = (.error (.createBacking (backingRoot ++ "/" ++ name) .EEXIST),
         (createBlockDevice f1 name w).2.record (.openFile (backingRoot ++ "/" ++ name))) ∧
    (createBlockDevice f2 name (createBlockDevice f1 name w).2).2.log
      = (createBlockDevice f1 name w).2.log ++ [.openFile (backingRoot ++ "/" ++ name)] ∧
    (createBlockDevice f2 name (createBlockDevice f1 name w).2).2.countAt
      (backingRoot ++ "/" ++ name) = 1 := by
  rcases hc : createBlockDevice f1 name w with ⟨r1, w1⟩
  rw [hc] at h
  simp only at h
  rcases createBlockDevice_spec f1 name w w1 r1 hc with ⟨c, hr, _⟩ | ⟨t, hres, hp, hcwd, hn⟩
  · exact absurd hr (h c)
  have hk : kindAt w.nodes t = none := by
    unfold World.present at hp
    simp only [Bool.or_eq_false_iff, decide_eq_false_iff_not] at hp
    cases hk : kindAt w.nodes t with
    | none => rfl
    | some k => rw [hk] at hp; simp at hp
  have h0 : w.nodes.count (t, Kind.regular) = 0 := by
    rw [List.count_eq_zero]
    intro hmem
    have : (List.find? (fun n => decide (n.1 = t)) w.nodes).isSome = true := by
      rw [List.find?_isSome]
      exact ⟨_, hmem, by simp⟩
    unfold kindAt at hk
    cases hf : List.find? (fun n => decide (n.1 = t)) w.nodes with
    | none => rw [hf] at this; simp at this
    | some n => rw [hf] at hk; simp at hk
  have hfacts : w1.resolve (backingRoot ++ "/" ++ name) = some t ∧ w1.present t = true ∧
      w1.nodes.count (t, Kind.regular) = 1 := by
    rcases hn with ⟨_, hnodes⟩ | ⟨t2, hne, hnodes⟩
    · refine ⟨?_, ?_, ?_⟩
      · unfold World.resolve at hres ⊢
        rw [hcwd, hnodes]
        exact resolveAt_append w.cwd w.nodes t .regular _ t hres
      · unfold World.present
        rw [hnodes, kindAt_append, hk]
        simp
      · rw [hnodes, List.count_append, h0]
        simp
    · refine ⟨?_, ?_, ?_⟩
      · unfold World.resolve at hres ⊢
        rw [hcwd, hnodes]
        have := resolveAt_append w.cwd w.nodes t .regular _ t hres
        have := resolveAt_append w.cwd _ t2 .device _ t this
        simpa using this
      · unfold World.present
        have : w.nodes ++ [(t, Kind.regular), (t2, Kind.device)]
            = (w.nodes ++ [(t, Kind.regular)]) ++ [(t2, Kind.device)] := by simp
        rw [hnodes, this, kindAt_append, kindAt_append, hk]
        simp
      · rw [hnodes, List.count_append, h0]
        have hne' : ¬ ((t2, Kind.device) = (t, Kind.regular)) := by simp
        simp [List.count_cons, hne']
  obtain ⟨hres1, hp1, hcount⟩ := hfacts
  have h2 : createBlockDevice f2 name w1
      = (.error (.createBacking (backingRoot ++ "/" ++ name) .EEXIST),
         w1.record (.openFile (backingRoot ++ "/" ++ name))) :=
    createBlockDevice_of_backing_error f2 name w1 _ _
      (createBackingFile_exists f2 _ w1 t hres1 hp1)
  refine ⟨h2, ?_, ?_⟩
  · rw [h2]; rfl
  · rw [h2]
    unfold World.countAt
    rw [record_resolve, hres1]
    exact hcount

/-- C4 (witness): two creates of `vol1` on a machine with an empty store, the
first of which succeeds. -/
theorem C4_second_create_fails_already_exists_witness :
    (createBlockDevice noFaults "vol1" freshWorld).1 = .ok () ∧
    createBlockDevice noFaults "vol1" (createBlockDevice noFaults "vol1" freshWorld).2
      = (.error (.createBacking (backingRoot ++ "/" ++ "vol1") .EEXIST),
         (createBlockDevice noFaults "vol1" freshWorld).2.record
           (.openFile (backingRoot ++ "/" ++ "vol1"))) ∧
    (createBlockDevice noFaults "vol1" (createBlockDevice noFaults "vol1" freshWorld).2).2.log
      = (createBlockDevice noFaults "vol1" freshWorld).2.log
          ++ [.openFile (backingRoot ++ "/" ++ "vol1")] ∧
    (createBlockDevice noFaults "vol1" (createBlockDevice noFaults "vol1" freshWorld).2).2.countAt
      (backingRoot ++ "/" ++ "vol1") = 1 :=
  ⟨by decide,
   C4_second_create_fails_already_exists noFaults noFaults "vol1" freshWorld (by
    intro c hc
    have hok : (createBlockDevice noFaults "vol1" freshWorld).1 = .ok () := by decide
    rw [hok] at hc
    cases hc)⟩

/-- C7 (counterexample): on a machine with an empty store, when the exclusive
open succeeds and the pre-allocation fails, `create("vol1")` fails at
`createBackingFile` but the store is not what it was before the call: the
listing of the root was empty and now shows `vol1`. -/
theorem C7_counterexample :
    (createBackingFile fallocateFails (backingRoot ++ "/" ++ "vol1") freshWorld).1
      = .error (.allocate "/tmp/docker-volumes/vol1" .fault) ∧
    (createBlockDevice fallocateFails "vol1" freshWorld).1
      = .error (.allocate "/tmp/docker-volumes/vol1" .fault) ∧
    (ReadDir noFaults backingRoot freshWorld).1 = .ok [] ∧
    (ReadDir noFaults backingRoot (createBlockDevice fallocateFails "vol1" freshWorld).2).1
      = .ok ["vol1"] := by
  decide

/-- C7 (amended): whenever `create(name)` fails at the `createBackingFile` step,
no later step (minor selection, node creation, bind, format) has run; when it
is the exclusive open that failed, the machine is as before the call apart
from the recorded open, so the set of backing files is unchanged; when it is
the pre-allocation that failed, the file system has gained exactly the new
backing file root/name. -/
theorem C7_create_fails_in_createBackingFile (f : Faults) (name : String) (w : World) (e : Err)
    (h : (createBackingFile f (backingRoot ++ "/" ++ name) w).1 = .error e) :
    (createBlockDevice f name w).1 = .error e ∧
    ((∃ c, e = .createBacking (backingRoot ++ "/" ++ name) c ∧
        (createBlockDevice f name w).2 = w.record (.openFile (backingRoot ++ "/" ++ name))) ∨
     (∃ c t, e = .allocate (backingRoot ++ "/" ++ name) c ∧
        w.resolve (backingRoot ++ "/" ++ name) = some t ∧ w.present t = false ∧
        (createBlockDevice f name w).2 =
          { w with nodes := w.nodes ++ [(t, .regular)],
                   log := w.log ++ [.openFile (backingRoot ++ "/" ++ name),
                                    .fallocate (backingRoot ++ "/" ++ name) (100 * 1024 * 1024)] })) := by
  rcases hb : createBackingFile f (backingRoot ++ "/" ++ name) w with ⟨rb, wb⟩
  rw [hb] at h
  simp only at h
  subst h
  rw [createBlockDevice_of_backing_error f name w wb e hb]
  refine ⟨rfl, ?_⟩
  rcases createBackingFile_spec f _ w _ wb hb with ⟨c, hr, hw⟩ | ⟨t, hres, hp, hw, hr | ⟨c, hr⟩⟩
  · simp only [Except.error.injEq] at hr
    exact Or.inl ⟨c, hr, hw⟩
  · simp at hr
  · simp only [Except.error.injEq] at hr
    exact Or.inr ⟨c, t, hr, hres, hp, hw⟩

/-- C7 (witness): the pre-allocation fails on a machine with an empty store. -/
theorem C7_create_fails_in_createBackingFile_witness :
    (createBlockDevice fallocateFails "vol1" freshWorld).1
      = .error (.allocate "/tmp/docker-volumes/vol1" .fault) ∧
    ((∃ c, Err.allocate "/tmp/docker-volumes/vol1" .fault
          = .createBacking (backingRoot ++ "/" ++ "vol1") c ∧
        (createBlockDevice fallocateFails "vol1" freshWorld).2
          = freshWorld.record (.openFile (backingRoot ++ "/" ++ "vol1"))) ∨
     (∃ c t, Err.allocate "/tmp/docker-volumes/vol1" .fault
          = .allocate (backingRoot ++ "/" ++ "vol1") c ∧
        freshWorld.resolve (backingRoot ++ "/" ++ "vol1") = some t ∧
        freshWorld.present t = false ∧
        (createBlockDevice fallocateFails "vol1" freshWorld).2 =
          { freshWorld with
              nodes := freshWorld.nodes ++ [(t, .regular)],
              log := freshWorld.log ++
                [.openFile (backingRoot ++ "/" ++ "vol1"),
                 .fallocate (backingRoot ++ "/" ++ "vol1") (100 * 1024 * 1024)] })) :=
  C7_create_fails_in_createBackingFile fallocateFails "vol1" freshWorld
    (.allocate "/tmp/docker-volumes/vol1" .fault) (by decide)


/-! ## remove: lemmas and claims -/

theorem pathExists_congr (w w1 : World) (hc : w1.cwd = w.cwd) (hn : w1.nodes = w.nodes)
    (p : String) : w1.pathExists p = w.pathExists p := by
  unfold World.pathExists World.present
  rw [resolve_congr w w1 hc hn, hn]

theorem present_eq_false (w : World) (t : Path) (h : w.present t = false) :
    t ≠ [] ∧ kindAt w.nodes t = none := by
  unfold World.present at h
  simp only [Bool.or_eq_false_iff, decide_eq_false_iff_not] at h
  refine ⟨h.1, ?_⟩
  cases hk : kindAt w.nodes t with
  | none => rfl
  | some k => rw [hk] at h; simp at h

/-- Removing a node never brings a missing path into existence, and the path
that named the removed node names nothing afterwards. -/
theorem pathExists_unlink (w w1 : World) (t : Path) (ht : t ≠ [])
    (hc : w1.cwd = w.cwd) (hn : w1.nodes = w.nodes.filter (fun n => n.1 ≠ t)) (p : String)
    (h : w.resolve p = some t ∨ w.pathExists p = false) :
    w1.pathExists p = false := by
  have hsub : ∀ q, kindAt w1.nodes q = some Kind.dir → kindAt w.nodes q = some Kind.dir := by
    intro q hq
    rw [hn, kindAt_filter] at hq
    by_cases hqt : q = t
    · simp [hqt] at hq
    · simpa [hqt] using hq
  unfold World.pathExists
  cases hr1 : w1.resolve p with
  | none => rfl
  | some u =>
    have hru : w.resolve p = some u := by
      unfold World.resolve at hr1 ⊢
      rw [hc] at hr1
      exact resolveAt_mono w.cwd w1.nodes w.nodes hsub p u hr1
    simp only
    unfold World.present
    rw [hn, kindAt_filter]
    rcases h with h | h
    · rw [h] at hru
      simp only [Option.some.injEq] at hru
      subst hru
      simp [ht]
    · unfold World.pathExists at h
      rw [hru] at h
      simp only at h
      obtain ⟨hu, hk⟩ := present_eq_false w u h
      simp [hu, hk]

theorem not_mem_filter_fst (l : List (String × String)) (d : String) :
    d ∉ (l.filter (fun b => b.1 ≠ d)).map Prod.fst := by
  intro h
  rw [List.mem_map] at h
  obtain ⟨b, hb, hbd⟩ := h
  rw [List.mem_filter] at hb
  simp only [ne_eq, decide_not, Bool.not_eq_true', decide_eq_false_iff_not] at hb
  exact hb.2 hbd

/-- C5 (counterexample): on a machine with an empty store where a foreign loop
device carries the label `x`, `remove("x")` fails only when it comes to delete
the missing backing file; by then it has detached that device. -/
theorem C5_counterexample :
    foreignLabelWorld.pathExists (backingRoot ++ "/" ++ "x") = false ∧
    (remove noFaults "x" foreignLabelWorld).1
      = .error (.removeBacking "/tmp/docker-volumes/x" .ENOENT) ∧
    foreignLabelWorld.bound = [("/dev/loop7", "/srv/disk.img")] ∧
    (remove noFaults "x" foreignLabelWorld).2.bound = [] ∧
    (remove noFaults "x" foreignLabelWorld).2.log
      = [.blkid "x", .losetupDetach "/dev/loop7", .osRemove "/tmp/docker-volumes/x"] := by
  decide

/-- C5 (amended): for every name with nothing at root/name, `remove(name)` fails
and leaves the file system as it was: no backing file is deleted and no device
node is removed; when moreover no device carries the label `name`, it fails at
the label lookup with the not-found error and changes nothing at all, so that
no device is detached. -/
theorem C5_remove_of_missing_backing_file (f : Faults) (name : String) (w : World)
    (h : w.pathExists (backingRoot ++ "/" ++ name) = false) :
    (∃ e, (remove f name w).1 = .error e) ∧
    (remove f name w).2.cwd = w.cwd ∧ (remove f name w).2.nodes = w.nodes ∧
    (w.labels.find? (fun l => l.1 = name) = none →
      remove f name w = (.error (.findDevice (backingRoot ++ "/" ++ name)),
                         w.record (.blkid name))) := by
  unfold remove
  simp only
  rcases hb : blkid f name w with ⟨rb, w1⟩
  have hw1 : w1 = w.record (.blkid name) := by
    have := blkid_snd f name w
    rw [hb] at this; exact this
  cases rb with
  | error e =>
    exact ⟨⟨_, rfl⟩, by rw [hw1]; rfl, by rw [hw1]; rfl, fun _ => by rw [hw1]⟩
  | ok out =>
    have hfind : ¬ w.labels.find? (fun l => l.1 = name) = none := by
      intro hnone
      obtain ⟨e, he⟩ := blkid_none f name w hnone
      rw [he] at hb
      simp at hb
    simp only
    rcases hd : losetupDetach f (TrimRight out) w1 with ⟨rd, w2⟩
    have hw2 : w2.cwd = w.cwd ∧ w2.nodes = w.nodes := by
      rcases losetupDetach_spec f _ w1 rd w2 hd with ⟨e, _, hw⟩ | ⟨_, hw⟩ <;>
        subst hw <;> subst hw1 <;> exact ⟨rfl, rfl⟩
    cases rd with
    | error e =>
      exact ⟨⟨_, rfl⟩, hw2.1, hw2.2, fun hnone => absurd hnone hfind⟩
    | ok u =>
      have hpe : w2.pathExists (backingRoot ++ "/" ++ name) = false := by
        rw [pathExists_congr w w2 hw2.1 hw2.2]; exact h
      obtain ⟨e, he⟩ := osRemove_absent f _ w2 hpe
      simp only [he]
      exact ⟨⟨_, rfl⟩, hw2.1, hw2.2, fun hnone => absurd hnone hfind⟩

/-- C5 (witness): `remove` of a name nobody created, on a machine with an
empty store and no labelled device. -/
theorem C5_remove_of_missing_backing_file_witness :
    (∃ e, (remove noFaults "ghost" freshWorld).1 = .error e) ∧
    (remove noFaults "ghost" freshWorld).2.cwd = freshWorld.cwd ∧
    (remove noFaults "ghost" freshWorld).2.nodes = freshWorld.nodes ∧
    (freshWorld.labels.find? (fun l => l.1 = "ghost") = none →
      remove noFaults "ghost" freshWorld
        = (.error (.findDevice (backingRoot ++ "/" ++ "ghost")),
           freshWorld.record (.blkid "ghost"))) :=
  C5_remove_of_missing_backing_file noFaults "ghost" freshWorld (by decide)


/-- C6: `remove(name)` runs its sub-steps in the order label lookup (`blkid`),
unbind device (`losetup -d` on the device the lookup printed, trimmed), delete
backing file, remove device node, each on the machine the previous one left.
The first sub-step that fails ends the call with its error and none of the
later ones is executed: the log of calls has grown by exactly the steps up to
and including the failing one.  A failed lookup or a failed unbind leaves the
machine as it was (backing file and device node in place), a failed deletion
of the backing file leaves the file system as it was (device node in place),
and when all four succeed the call succeeds, the device is detached, and the
backing file, which existed before, and the device node are both gone. -/
theorem C6_remove_runs_steps_in_order (f : Faults) (name : String) (w : World) :
    (∀ e, (blkid f name w).1 = .error e →
      remove f name w
        = (.error (.findDevice (backingRoot ++ "/" ++ name)), w.record (.blkid name))) ∧
    (∀ out e w2, (blkid f name w).1 = .ok out →
      losetupDetach f (TrimRight out) (w.record (.blkid name)) = (.error e, w2) →
      remove f name w
        = (.error (.detach (TrimRight out) e),
           (w.record (.blkid name)).record (.losetupDetach (TrimRight out)))) ∧
    (∀ out w2 e w3, (blkid f name w).1 = .ok out →
      losetupDetach f (TrimRight out) (w.record (.blkid name)) = (.ok (), w2) →
      osRemove f (backingRoot ++ "/" ++ name) w2 = (.error e, w3) →
      remove f name w
        = (.error (.removeBacking (backingRoot ++ "/" ++ name) e),
           w2.record (.osRemove (backingRoot ++ "/" ++ name))) ∧
      (remove f name w).2.log = w.log ++ [.blkid name, .losetupDetach (TrimRight out),
        .osRemove (backingRoot ++ "/" ++ name)] ∧
      TrimRight out ∉ (remove f name w).2.bound.map Prod.fst ∧
      (remove f name w).2.cwd = w.cwd ∧ (remove f name w).2.nodes = w.nodes) ∧
    (∀ out w2 w3 e w4, (blkid f name w).1 = .ok out →
      losetupDetach f (TrimRight out) (w.record (.blkid name)) = (.ok (), w2) →
      osRemove f (backingRoot ++ "/" ++ name) w2 = (.ok (), w3) →
      osRemove f (TrimRight out) w3 = (.error e, w4) →
      remove f name w
        = (.error (.osRemove (TrimRight out) e), w3.record (.osRemove (TrimRight out))) ∧
      (remove f name w).2.log = w.log ++ [.blkid name, .losetupDetach (TrimRight out),
        .osRemove (backingRoot ++ "/" ++ name), .osRemove (TrimRight out)] ∧
      TrimRight out ∉ (remove f name w).2.bound.map Prod.fst ∧
      w.pathExists (backingRoot ++ "/" ++ name) = true ∧
      (remove f name w).2.pathExists (backingRoot ++ "/" ++ name) = false) ∧
    (∀ out w2 w3 w4, (blkid f name w).1 = .ok out →
      losetupDetach f (TrimRight out) (w.record (.blkid name)) = (.ok (), w2) →
      osRemove f (backingRoot ++ "/" ++ name) w2 = (.ok (), w3) →
      osRemove f (TrimRight out) w3 = (.ok (), w4) →
      remove f name w = (.ok (), w4) ∧
      w4.log = w.log ++ [.blkid name, .losetupDetach (TrimRight out),
        .osRemove (backingRoot ++ "/" ++ name), .osRemove (TrimRight out)] ∧
      TrimRight out ∉ w4.bound.map Prod.fst ∧
      w.pathExists (backingRoot ++ "/" ++ name) = true ∧
      w4.pathExists (backingRoot ++ "/" ++ name) = false ∧
      w4.pathExists (TrimRight out) = false) := by
  have hb2 : ∀ r, (blkid f name w).1 = r → blkid f name w = (r, w.record (.blkid name)) := by
    intro r hr
    rw [← hr, ← blkid_snd f name w]
  -- what is known once the lookup and the unbind have succeeded
  have hdet : ∀ out w2,
      losetupDetach f (TrimRight out) (w.record (.blkid name)) = (.ok (), w2) →
      w2.log = w.log ++ [.blkid name, .losetupDetach (TrimRight out)] ∧
      w2.cwd = w.cwd ∧ w2.nodes = w.nodes ∧ TrimRight out ∉ w2.bound.map Prod.fst := by
    intro out w2 hd
    rcases losetupDetach_spec f _ _ _ w2 hd with ⟨e, hr, _⟩ | ⟨_, hw2⟩
    · simp at hr
    · subst hw2
      exact ⟨by simp [World.record], rfl, rfl, not_mem_filter_fst _ _⟩
  -- what is known once the backing file has been deleted as well
  have hdel : ∀ out w2 w3,
      losetupDetach f (TrimRight out) (w.record (.blkid name)) = (.ok (), w2) →
      osRemove f (backingRoot ++ "/" ++ name) w2 = (.ok (), w3) →
      w3.log = w.log ++ [.blkid name, .losetupDetach (TrimRight out),
        .osRemove (backingRoot ++ "/" ++ name)] ∧
      TrimRight out ∉ w3.bound.map Prod.fst ∧
      w.pathExists (backingRoot ++ "/" ++ name) = true ∧
      w3.pathExists (backingRoot ++ "/" ++ name) = false := by
    intro out w2 w3 hd h3
    obtain ⟨hlog2, hcwd2, hnodes2, hbound2⟩ := hdet out w2 hd
    rcases osRemove_spec f _ w2 _ w3 h3 with ⟨e, hr, _⟩ | ⟨t, hres, ht, hk, _, hw3⟩
    · simp at hr
    · refine ⟨?_, ?_, ?_, ?_⟩
      · subst hw3
        show w2.log ++ [_] = _
        rw [hlog2]; simp
      · subst hw3; exact hbound2
      · rw [← pathExists_congr w w2 hcwd2 hnodes2]
        unfold World.pathExists World.present
        rw [hres]
        simp [hk]
      · exact pathExists_unlink w2 w3 t ht (by subst hw3; rfl) (by subst hw3; rfl) _
          (Or.inl hres)
  refine ⟨?_, ?_, ?_, ?_, ?_⟩
  · intro e he
    unfold remove
    simp only [hb2 _ he]
  · intro out e w2 ho hd
    have hw2 : w2 = (w.record (.blkid name)).record (.losetupDetach (TrimRight out)) := by
      rcases losetupDetach_spec f _ _ _ w2 hd with ⟨e', _, hw⟩ | ⟨hr, _⟩
      · exact hw
      · simp at hr
    unfold remove
    simp only [hb2 _ ho, hd, hw2]
  · intro out w2 e w3 ho hd h3
    obtain ⟨hlog2, hcwd2, hnodes2, hbound2⟩ := hdet out w2 hd
    have hw3 : w3 = w2.record (.osRemove (backingRoot ++ "/" ++ name)) := by
      rcases osRemove_spec f _ w2 _ w3 h3 with ⟨e', _, hw⟩ | ⟨t, _, _, _, hr, _⟩
      · exact hw
      · simp at hr
    have hrem : remove f name w
        = (.error (.removeBacking (backingRoot ++ "/" ++ name) e),
           w2.record (.osRemove (backingRoot ++ "/" ++ name))) := by
      unfold remove
      simp only [hb2 _ ho, hd, h3, hw3]
    rw [hrem]
    refine ⟨rfl, ?_, hbound2, hcwd2, hnodes2⟩
    show w2.log ++ [_] = _
    rw [hlog2]; simp
  · intro out w2 w3 e w4 ho hd h3 h4
    obtain ⟨hlog3, hbound3, hpre, hgone3⟩ := hdel out w2 w3 hd h3
    have hw4 : w4 = w3.record (.osRemove (TrimRight out)) := by
      rcases osRemove_spec f _ w3 _ w4 h4 with ⟨e', _, hw⟩ | ⟨t, _, _, _, hr, _⟩
      · exact hw
      · simp at hr
    have hrem : remove f name w
        = (.error (.osRemove (TrimRight out) e), w3.record (.osRemove (TrimRight out))) := by
      unfold remove
      simp only [hb2 _ ho, hd, h3, h4, hw4]
    rw [hrem]
    refine ⟨rfl, ?_, hbound3, hpre, ?_⟩
    · show w3.log ++ [_] = _
      rw [hlog3]; simp
    · show (w3.record (Step.osRemove (TrimRight out))).pathExists _ = false
      rw [pathExists_congr w3 (w3.record (Step.osRemove (TrimRight out))) rfl rfl]
      exact hgone3
  · intro out w2 w3 w4 ho hd h3 h4
    obtain ⟨hlog3, hbound3, hpre, hgone3⟩ := hdel out w2 w3 hd h3
    have hrem : remove f name w = (.ok (), w4) := by
      unfold remove
      simp only [hb2 _ ho, hd, h3, h4]
    rcases osRemove_spec f _ w3 _ w4 h4 with ⟨e', hr, _⟩ | ⟨t2, hres2, ht2, _, _, hw4⟩
    · simp at hr
    · refine ⟨hrem, ?_, ?_, hpre, ?_, ?_⟩
      · subst hw4
        show w3.log ++ [_] = _
        rw [hlog3]; simp
      · subst hw4; exact hbound3
      · exact pathExists_unlink w3 w4 t2 ht2 (by subst hw4; rfl) (by subst hw4; rfl) _
          (Or.inr hgone3)
      · exact pathExists_unlink w3 w4 t2 ht2 (by subst hw4; rfl) (by subst hw4; rfl) _
          (Or.inl hres2)

/-- C6 (witness): on the machine holding `vol1` and `vol2`, the lookup prints
`/dev/loop1002`, all four steps of `remove("vol1")` succeed, and the call
succeeds with the device detached and both the backing file and the device
node gone. -/
theorem C6_remove_runs_steps_in_order_witness :
    (blkid noFaults "vol1" twoVolumeWorld).1 = .ok "/dev/loop1002\n" ∧
    TrimRight "/dev/loop1002\n" = "/dev/loop1002" ∧
    remove noFaults "vol1" twoVolumeWorld = (.ok (), (osRemove noFaults (TrimRight "/dev/loop1002\n")
      ((osRemove noFaults (backingRoot ++ "/" ++ "vol1")
        ((losetupDetach noFaults (TrimRight "/dev/loop1002\n") (twoVolumeWorld.record (.blkid "vol1"))).2)).2)).2) ∧
    ((osRemove noFaults (TrimRight "/dev/loop1002\n")
      ((osRemove noFaults (backingRoot ++ "/" ++ "vol1")
        ((losetupDetach noFaults (TrimRight "/dev/loop1002\n") (twoVolumeWorld.record (.blkid "vol1"))).2)).2)).2).log
      = twoVolumeWorld.log ++ [.blkid "vol1", .losetupDetach (TrimRight "/dev/loop1002\n"),
          .osRemove (backingRoot ++ "/" ++ "vol1"), .osRemove (TrimRight "/dev/loop1002\n")] ∧
    (TrimRight "/dev/loop1002\n") ∉ ((osRemove noFaults (TrimRight "/dev/loop1002\n")
      ((osRemove noFaults (backingRoot ++ "/" ++ "vol1")
        ((losetupDetach noFaults (TrimRight "/dev/loop1002\n") (twoVolumeWorld.record (.blkid "vol1"))).2)).2)).2).bound.map Prod.fst ∧
    twoVolumeWorld.pathExists (backingRoot ++ "/" ++ "vol1") = true ∧
    ((osRemove noFaults (TrimRight "/dev/loop1002\n")
      ((osRemove noFaults (backingRoot ++ "/" ++ "vol1")
        ((losetupDetach noFaults (TrimRight "/dev/loop1002\n") (twoVolumeWorld.record (.blkid "vol1"))).2)).2)).2).pathExists (backingRoot ++ "/" ++ "vol1") = false ∧
    ((osRemove noFaults (TrimRight "/dev/loop1002\n")
      ((osRemove noFaults (backingRoot ++ "/" ++ "vol1")
        ((losetupDetach noFaults (TrimRight "/dev/loop1002\n") (twoVolumeWorld.record (.blkid "vol1"))).2)).2)).2).pathExists (TrimRight "/dev/loop1002\n") = false :=
  ⟨by decide, by decide,
   (C6_remove_runs_steps_in_order noFaults "vol1" twoVolumeWorld).2.2.2.2 "/dev/loop1002\n"
    ((losetupDetach noFaults (TrimRight "/dev/loop1002\n") (twoVolumeWorld.record (.blkid "vol1"))).2)
    ((osRemove noFaults (backingRoot ++ "/" ++ "vol1")
        ((losetupDetach noFaults (TrimRight "/dev/loop1002\n") (twoVolumeWorld.record (.blkid "vol1"))).2)).2)
    ((osRemove noFaults (TrimRight "/dev/loop1002\n")
      ((osRemove noFaults (backingRoot ++ "/" ++ "vol1")
        ((losetupDetach noFaults (TrimRight "/dev/loop1002\n") (twoVolumeWorld.record (.blkid "vol1"))).2)).2)).2)
    (by decide) (by decide) (by decide) (by decide)⟩

/-! ## Paths of the store: lemmas -/

theorem splitChars_cons (acc : List Char) (c : Char) (cs : List Char) :
    splitChars acc (c :: cs)
      = if c = '/' then acc.reverse :: splitChars [] cs else splitChars (c :: acc) cs := by
  rw [splitChars]

theorem splitChars_no_slash (xs acc : List Char) (h : '/' ∉ xs) :
    splitChars acc xs = [acc.reverse ++ xs] := by
  induction xs generalizing acc with
  | nil => simp [splitChars]
  | cons c cs ih =>
    have hc : ¬ c = '/' := fun hc => h (by rw [hc]; exact List.mem_cons_self _ _)
    have hcs : '/' ∉ cs := fun hm => h (List.mem_cons_of_mem _ hm)
    rw [splitChars_cons, if_neg hc, ih _ hcs]
    simp

theorem splitChars_append_slash (a rest acc : List Char) (h : '/' ∉ a) :
    splitChars acc (a ++ '/' :: rest) = (acc.reverse ++ a) :: splitChars [] rest := by
  induction a generalizing acc with
  | nil => simp [splitChars_cons]
  | cons c cs ih =>
    have hc : ¬ c = '/' := fun hc => h (by rw [hc]; exact List.mem_cons_self _ _)
    have hcs : '/' ∉ cs := fun hm => h (List.mem_cons_of_mem _ hm)
    rw [List.cons_append]
    rw [splitChars_cons, if_neg hc, ih _ hcs]
    simp

theorem backing_data (name : String) :
    (backingRoot ++ "/" ++ name).data
      = [] ++ '/' :: ("tmp".data ++ '/' :: ("docker-volumes".data ++ '/' :: name.data)) := by
  rw [String.data_append]
  rfl

theorem splitPath_backing (name : String) (h : '/' ∉ name.data) :
    splitPath (backingRoot ++ "/" ++ name) = ["", "tmp", "docker-volumes", name] := by
  unfold splitPath
  rw [backing_data, splitChars_append_slash _ _ _ (by decide),
    splitChars_append_slash _ _ _ (by decide), splitChars_append_slash _ _ _ (by decide),
    splitChars_no_slash _ _ h]
  rfl

theorem walk_store (nodes : List (Path × Kind)) :
    walk nodes [] ["", "tmp", "docker-volumes"]
      = if kindAt nodes ["tmp"] = some .dir then
          if kindAt nodes ["tmp", "docker-volumes"] = some .dir then
            some ["tmp", "docker-volumes"]
          else none
        else none := by
  simp [walk]

theorem walk_tmp (nodes : List (Path × Kind)) :
    walk nodes [] ["", "tmp"]
      = if kindAt nodes ["tmp"] = some .dir then some ["tmp"] else none := by
  simp [walk]

theorem resolve_backing_valid (w : World) (name : String) (hv : validName name) (t : Path)
    (h : w.resolve (backingRoot ++ "/" ++ name) = some t) :
    t = ["tmp", "docker-volumes", name] ∧ kindAt w.nodes ["tmp"] = some .dir ∧
      kindAt w.nodes ["tmp", "docker-volumes"] = some .dir := by
  obtain ⟨hne, hslash, hdot, hdd⟩ := hv
  unfold World.resolve resolveAt at h
  have hd : (backingRoot ++ "/" ++ name).data
      = '/' :: ("tmp".data ++ '/' :: ("docker-volumes".data ++ '/' :: name.data)) := by
    rw [backing_data]; rfl
  rw [hd] at h
  simp only [splitPath_backing name hslash, if_true] at h
  have h1 : List.dropLast ["", "tmp", "docker-volumes", name] = ["", "tmp", "docker-volumes"] :=
    rfl
  have h2 : List.getLastD ["", "tmp", "docker-volumes", name] "" = name := rfl
  rw [h1, h2, walk_store] at h
  have hl : lastStep ["tmp", "docker-volumes"] name = ["tmp", "docker-volumes", name] := by
    unfold lastStep
    rw [if_neg (by rintro (h | h) <;> contradiction), if_neg hdd]
    rfl
  by_cases hk1 : kindAt w.nodes ["tmp"] = some .dir
  · by_cases hk2 : kindAt w.nodes ["tmp", "docker-volumes"] = some .dir
    · rw [if_pos hk1, if_pos hk2] at h
      simp only [Option.some.injEq] at h
      rw [hl] at h
      exact ⟨h.symm, hk1, hk2⟩
    · rw [if_pos hk1, if_neg hk2] at h
      simp at h
  · rw [if_neg hk1] at h
    simp at h

theorem backingRoot_data : backingRoot.data = '/' :: ("tmp".data ++ '/' :: "docker-volumes".data) :=
  rfl

theorem splitPath_backingRoot : splitPath backingRoot = ["", "tmp", "docker-volumes"] := by
  decide

theorem resolve_backingRoot (w : World) (h : kindAt w.nodes ["tmp"] = some .dir) :
    w.resolve backingRoot = some ["tmp", "docker-volumes"] := by
  unfold World.resolve resolveAt
  rw [backingRoot_data]
  simp only [splitPath_backingRoot, if_true]
  have h1 : List.dropLast ["", "tmp", "docker-volumes"] = ["", "tmp"] := rfl
  have h2 : List.getLastD ["", "tmp", "docker-volumes"] "" = "docker-volumes" := rfl
  rw [h1, h2, walk_tmp, if_pos h]
  rfl


/-! ## list: lemmas and claims -/

theorem list_foldl (files : List String) (acc : List VolumeData) :
    files.foldl (fun vs file => GoSlice.append vs ⟨file⟩) (some acc)
      = some (acc ++ files.map VolumeData.mk) := by
  induction files generalizing acc with
  | nil => simp
  | cons a l ih =>
    rw [List.foldl_cons, show GoSlice.append (some acc) (VolumeData.mk a) = some (acc ++ [⟨a⟩])
      from rfl, ih]
    simp

theorem list_spec (f : Faults) (enc : VolumeData → String) (w w1 : World) (files : List String)
    (h : ReadDir f backingRoot w = (.ok files, w1)) :
    list f enc w = (.ok (jsonMarshal enc (some (files.map VolumeData.mk))), w1) := by
  unfold list
  rw [h]
  simp only [GoSlice.make, list_foldl, List.nil_append]

theorem jsonMarshal_ne_null {α : Type} (enc : α → String) (xs : List α) :
    jsonMarshal enc (some xs) ≠ "null" := by
  unfold jsonMarshal
  intro h
  have hd := congrArg String.data h
  rw [String.data_append, String.data_append] at hd
  have h1 : "[".data = ['['] := rfl
  have h2 : "null".data = ['n', 'u', 'l', 'l'] := rfl
  rw [h1, h2] at hd
  simp only [List.singleton_append, List.cons_append, List.cons.injEq] at hd
  exact absurd hd.1 (by decide)

/-- C8: for every readable store, `list()` returns a JSON array with exactly one
object per entry of the root directory, each made from that entry's name, in
directory-listing order; for an empty store the result is `[]`, and the result
is never `null`. -/
theorem C8_list_is_array_of_entries (f : Faults) (enc : VolumeData → String) (w : World)
    (files : List String) (h : (ReadDir f backingRoot w).1 = .ok files) :
    (list f enc w).1
      = .ok ("[" ++ ",".intercalate (files.map (fun n => enc ⟨n⟩)) ++ "]") ∧
    (files = [] → (list f enc w).1 = .ok "[]") ∧
    (list f enc w).1 ≠ .ok "null" := by
  rcases hr : ReadDir f backingRoot w with ⟨r, w1⟩
  rw [hr] at h
  simp only at h
  subst h
  have hl := list_spec f enc w w1 files hr
  have hform : jsonMarshal enc (some (files.map VolumeData.mk))
      = "[" ++ ",".intercalate (files.map (fun n => enc ⟨n⟩)) ++ "]" := by
    simp only [jsonMarshal, List.map_map]
    rfl
  rw [hl]
  refine ⟨by rw [hform], ?_, ?_⟩
  · intro he
    subst he
    rfl
  · intro hc
    simp only [Except.ok.injEq] at hc
    exact jsonMarshal_ne_null enc _ hc

/-- C8 (witness): the store holding `vol1` and `vol2`. -/
theorem C8_list_is_array_of_entries_witness :
    (list noFaults sampleEnc twoVolumeWorld).1
      = .ok ("[" ++ ",".intercalate (["vol1", "vol2"].map (fun n => sampleEnc ⟨n⟩)) ++ "]") ∧
    (["vol1", "vol2"] = [] → (list noFaults sampleEnc twoVolumeWorld).1 = .ok "[]") ∧
    (list noFaults sampleEnc twoVolumeWorld).1 ≠ .ok "null" :=
  C8_list_is_array_of_entries noFaults sampleEnc twoVolumeWorld ["vol1", "vol2"] (by decide)


theorem childName_eq_some (d q : Path) (c : String) :
    childName d q = some c ↔ q = d ++ [c] := by
  unfold childName
  constructor
  · intro h
    split_ifs at h with hd
    have := List.dropLast_append_getLast? c (by rw [Option.mem_def]; exact h)
    rw [hd] at this
    exact this.symm
  · intro h
    subst h
    rw [if_pos List.dropLast_concat, List.getLast?_concat]

theorem count_childName (l : List (Path × Kind)) (d : Path) (c : String) :
    (l.filterMap (fun n => childName d n.1)).count c = (l.map Prod.fst).count (d ++ [c]) := by
  induction l with
  | nil => rfl
  | cons a l ih =>
    by_cases ha : a.1 = d ++ [c]
    · have hc : childName d a.1 = some c := (childName_eq_some d a.1 c).mpr ha
      rw [List.filterMap_cons, hc, List.map_cons, ha]
      simp only [List.count_cons_self]
      rw [ih]
    · rw [List.map_cons, List.count_cons_of_ne (fun h => ha h.symm), List.filterMap_cons]
      cases hc : childName d a.1 with
      | none => exact ih
      | some c2 =>
        have hne : c2 ≠ c := by
          rintro rfl
          exact ha ((childName_eq_some d a.1 c2).mp hc)
        simp only
        rw [List.count_cons_of_ne (fun h => hne h.symm)]
        exact ih

theorem count_fst_of_kindAt_none (l : List (Path × Kind)) (t : Path) (h : kindAt l t = none) :
    (l.map Prod.fst).count t = 0 := by
  rw [List.count_eq_zero]
  intro hmem
  rw [List.mem_map] at hmem
  obtain ⟨n, hn, hnt⟩ := hmem
  have : (List.find? (fun n => decide (n.1 = t)) l).isSome = true := by
    rw [List.find?_isSome]
    exact ⟨n, hn, by simp [hnt]⟩
  unfold kindAt at h
  cases hf : List.find? (fun n => decide (n.1 = t)) l with
  | none => rw [hf] at this; simp at this
  | some n => rw [hf] at h; simp at h

theorem Mkdir_isDir (f : Faults) (p : String) (w : World) (t : Path)
    (hres : w.resolve p = some t) (hd : w.isDir t = true) :
    Mkdir f p w = (.ok (), w.record (.mkdir p)) := by
  unfold Mkdir
  simp only [hres, hd, if_true]

theorem Mkdir_snd (f : Faults) (p : String) (w : World) :
    (Mkdir f p w).2.log = w.log ++ [.mkdir p] := by
  unfold Mkdir
  simp only
  split
  · rfl
  · split_ifs <;> rfl

theorem Run_create_ok (f : Faults) (enc : VolumeData → String) (name : String)
    (opts : List (String × String)) (w : World)
    (h : (MockVmdkCmd.Run f enc "create" name opts w).1 = .ok none) :
    ∃ wm, createBlockDevice f name wm = (.ok (), (MockVmdkCmd.Run f enc "create" name opts w).2) := by
  unfold MockVmdkCmd.Run at h ⊢
  rcases hm : Mkdir f backingRoot w with ⟨rm, wm⟩
  rw [hm] at h
  simp only [hm]
  cases rm with
  | error e => simp at h
  | ok u =>
    simp only [if_true] at h ⊢
    rcases hc : createBlockDevice f name wm with ⟨rc, w1⟩
    rw [hc] at h
    cases rc with
    | error e => simp at h
    | ok u2 => exact ⟨wm, hc⟩

/-- C9 (counterexample): `create("../x")` succeeds on a machine with an empty
store (the backing file is made at /tmp/x, outside the store), and the
`list()` that follows returns the empty array: no record is named `../x`. -/
theorem C9_counterexample :
    (MockVmdkCmd.Run noFaults sampleEnc "create" "../x" [] freshWorld).1 = .ok none ∧
    (MockVmdkCmd.Run noFaults sampleEnc "list" "" []
      (MockVmdkCmd.Run noFaults sampleEnc "create" "../x" [] freshWorld).2).1 = .ok (some "[]") ∧
    (MockVmdkCmd.Run noFaults sampleEnc "create" "../x" [] freshWorld).2.kindOf "/tmp/x" = some .regular := by
  decide


/-- C9 (amended): for every name that is a single path component (not empty,
without `/`, neither `.` nor `..`) for which `create(name)` succeeds, a
following `list()` over the readable store returns an array that contains
exactly one record whose name is that name. -/
theorem C9_created_volume_listed_once (f1 f2 : Faults) (enc : VolumeData → String)
    (name lname : String) (opts1 opts2 : List (String × String)) (w : World)
    (hv : validName name)
    (hc : (MockVmdkCmd.Run f1 enc "create" name opts1 w).1 = .ok none)
    (hread : f2 (.readDir backingRoot) = false) :
    ∃ vols : List VolumeData,
      (MockVmdkCmd.Run f2 enc "list" lname opts2 (MockVmdkCmd.Run f1 enc "create" name opts1 w).2).1
        = .ok (some (jsonMarshal enc (some vols))) ∧
      vols.count ⟨name⟩ = 1 := by
  obtain ⟨wm, hcb⟩ := Run_create_ok f1 enc name opts1 w hc
  generalize (MockVmdkCmd.Run f1 enc "create" name opts1 w).2 = w1 at hcb ⊢
  obtain ⟨t, t2, hres, hp, hne, hcwd, hnodes⟩ := createBlockDevice_ok f1 name wm w1 hcb
  obtain ⟨ht, hk1, hk2⟩ := resolve_backing_valid wm name hv t hres
  obtain ⟨_, hkt⟩ := present_eq_false wm t hp
  have hnodes' : w1.nodes = (wm.nodes ++ [(t, Kind.regular)]) ++ [(t2, Kind.device)] := by
    rw [hnodes]; simp
  have hk1' : kindAt w1.nodes ["tmp"] = some .dir := by
    rw [hnodes']
    exact kindAt_isDir_append _ _ _ _ (kindAt_isDir_append _ _ _ _ hk1)
  have hk2' : kindAt w1.nodes ["tmp", "docker-volumes"] = some .dir := by
    rw [hnodes']
    exact kindAt_isDir_append _ _ _ _ (kindAt_isDir_append _ _ _ _ hk2)
  have hroot : w1.resolve backingRoot = some ["tmp", "docker-volumes"] :=
    resolve_backingRoot w1 hk1'
  have hdir : w1.isDir ["tmp", "docker-volumes"] = true := by
    unfold World.isDir
    simp [hk2']
  have hmk : Mkdir f2 backingRoot w1 = (.ok (), w1.record (.mkdir backingRoot)) :=
    Mkdir_isDir f2 backingRoot w1 _ hroot hdir
  have hrd : ReadDir f2 backingRoot (w1.record (.mkdir backingRoot))
      = (.ok (w1.entries ["tmp", "docker-volumes"]),
         (w1.record (.mkdir backingRoot)).record (.readDir backingRoot)) := by
    unfold ReadDir
    have hd2 : (w1.record (.mkdir backingRoot)).isDir ["tmp", "docker-volumes"] = true := hdir
    simp only [record_resolve, hroot, hd2, hread, if_true, Bool.false_eq_true, if_false]
    rfl
  have hlist := list_spec f2 enc _ _ _ hrd
  refine ⟨(w1.entries ["tmp", "docker-volumes"]).map VolumeData.mk, ?_, ?_⟩
  · unfold MockVmdkCmd.Run
    rw [hmk]
    simp only [hlist]
    rfl
  · have hinj : Function.Injective VolumeData.mk := by
      intro a b hab
      exact (VolumeData.mk.injEq a b).mp hab
    rw [List.count_map_of_injective _ _ hinj]
    unfold World.entries
    rw [(List.perm_insertionSort _ _).count_eq, count_childName, hnodes]
    have ht' : ["tmp", "docker-volumes"] ++ [name] = t := by rw [ht]; rfl
    rw [ht', List.map_append, List.count_append, count_fst_of_kindAt_none _ _ hkt]
    simp [List.count_cons, hne]

/-- C9 (witness): `create("vol1")` on a machine with an empty store. -/
theorem C9_created_volume_listed_once_witness :
    ∃ vols : List VolumeData,
      (MockVmdkCmd.Run noFaults sampleEnc "list" "" []
        (MockVmdkCmd.Run noFaults sampleEnc "create" "vol1" [] freshWorld).2).1
        = .ok (some (jsonMarshal sampleEnc (some vols))) ∧
      vols.count ⟨"vol1"⟩ = 1 :=
  C9_created_volume_listed_once noFaults noFaults sampleEnc "vol1" "" [] [] freshWorld
    (by decide) (by decide) (by decide)


/-! ## Worked runs -/

/-- On a machine holding the volumes `vol1` and `vol2`, `remove("vol1")` runs
all four steps and succeeds: the backing file and the device node are gone and
`list()` shows `vol2` only. -/
theorem remove_example_success :
    (remove noFaults "vol1" twoVolumeWorld).1 = .ok () ∧
    (remove noFaults "vol1" twoVolumeWorld).2.log
      = [.blkid "vol1", .losetupDetach "/dev/loop1002",
         .osRemove "/tmp/docker-volumes/vol1", .osRemove "/dev/loop1002"] ∧
    (remove noFaults "vol1" twoVolumeWorld).2.pathExists "/tmp/docker-volumes/vol1" = false ∧
    (remove noFaults "vol1" twoVolumeWorld).2.pathExists "/dev/loop1002" = false ∧
    (ReadDir noFaults backingRoot (remove noFaults "vol1" twoVolumeWorld).2).1 = .ok ["vol2"] := by
  decide

/-- On the same machine, when `losetup -d` fails, `remove("vol1")` stops after
two steps and the backing file and the device node stay in place. -/
theorem remove_example_failed_unbind :
    (remove detachFails "vol1" twoVolumeWorld).1 = .error (.detach "/dev/loop1002" .fault) ∧
    (remove detachFails "vol1" twoVolumeWorld).2.log
      = [.blkid "vol1", .losetupDetach "/dev/loop1002"] ∧
    (remove detachFails "vol1" twoVolumeWorld).2.pathExists "/tmp/docker-volumes/vol1" = true ∧
    (remove detachFails "vol1" twoVolumeWorld).2.pathExists "/dev/loop1002" = true := by
  decide

/-- The calls of a successful `create("vol1")` on a machine with an empty
store, in order, and the device it ends up with. -/
theorem create_example_success :
    (createBlockDevice noFaults "vol1" freshWorld).1 = .ok () ∧
    (createBlockDevice noFaults "vol1" freshWorld).2.log
      = [.openFile "/tmp/docker-volumes/vol1",
         .fallocate "/tmp/docker-volumes/vol1" 104857600,
         .readDir "/dev",
         .mknod "/dev/loop1001" 7 "1001",
         .losetupDetach "/dev/loop1001",
         .losetupBind "/dev/loop1001" "/tmp/docker-volumes/vol1",
         .mkfs "vol1" "/dev/loop1001"] ∧
    (createBlockDevice noFaults "vol1" freshWorld).2.bound
      = [("/dev/loop1001", "/tmp/docker-volumes/vol1")] ∧
    (createBlockDevice noFaults "vol1" freshWorld).2.labels = [("vol1", "/dev/loop1001")] := by
  decide

end Vmdkops
